import Mathlib

/-!
cudaram: the device state machine, the pending-bio queue and the work exchange

A shallow embedding of `src/kmod/cudaram.c` / `src/kmod/cudaram.h`.

* Kernel memory holding the bios is a map from addresses to `bio` records; the address `0`
  is `NULL`.  The pending queue is the intrusive list the driver builds out of `bi_next`,
  `bio_first` and `bio_last`; it is *not* replaced by a Lean list.  The predicate `is_queue`
  relates a driver state to the sequence of requests its list spells.
* Calls to `bio_endio` / `bio_io_error` are recorded, in order, in the field `ended`.
* What user space does to the driver (faults on `copy_from_user` / `copy_to_user`, a signal
  arriving during the wait) is an explicit argument of the function concerned.
* `wait_event_interruptible` may put the caller to sleep: `cudaram_work` then yields
  `ioctl_ret.asleep`, and `cudaram_work_wait` is the code the sleeper runs when it is woken.
* Pointers and `__u64` ids are natural numbers; a pointer converts to `__u64` unchanged.
  Narrower machine integers are reduced explicitly (`% 2 ^ 32`, `% 2 ^ 64`).
* The payload bytes moved by the copies are not part of the state: no statement below is
  about the contents of a page.
-/

namespace Cudaram

/-! ## Constants -/

/-- Data direction `READ` of the block layer. -/
def READ : Nat := 0

/-- Data direction `WRITE` of the block layer. -/
def WRITE : Nat := 1

/-- Errno value `EIO`; `bio_io_error` completes a bio with its negation. -/
def EIO_code : Int := 5

/-- Errno value `EFAULT`. -/
def EFAULT : Int := 14

/-- Errno value `EBUSY`. -/
def EBUSY : Int := 16

/-- Errno value `ENODEV`. -/
def ENODEV : Int := 19

/-- Kernel-internal value `ERESTARTSYS`. -/
def ERESTARTSYS : Int := 512

/-- Header constant `MB_SHIFT` of cudaram.h. -/
def MB_SHIFT : Nat := 20

/-- Header constant `SECTOR_SHIFT` of cudaram.h. -/
def SECTOR_SHIFT : Nat := 9

/-- Header constant `SECTORS_PER_PAGE_SHIFT` of cudaram.h; the architecture's `PAGE_SHIFT` is
a parameter. -/
def SECTORS_PER_PAGE_SHIFT (PAGE_SHIFT : Nat) : Nat := PAGE_SHIFT - SECTOR_SHIFT

/-- State `CUDARAM_STATE_FREE`: free. -/
def CUDARAM_STATE_FREE : Nat := 0

/-- State `CUDARAM_STATE_TAKEN`: control device taken. -/
def CUDARAM_STATE_TAKEN : Nat := 1

/-- State `CUDARAM_STATE_READY`: ready to service requests. -/
def CUDARAM_STATE_READY : Nat := 2

/-! ## Data -/

/-- The record `struct cudaram_params`. -/
structure cudaram_params where
  /-- capacity in MB (`__u64`) -/
  capacity : Nat
  /-- userspace buffer (`__u64`) -/
  buffer : Nat
  /-- size of the userspace buffer in MB (`__u32`) -/
  buffer_size : Nat
deriving DecidableEq

/-- The record `struct cudaram_work` (the function of the same name is `cudaram_work`). -/
structure cudaram_work_t where
  id : Nat
  dir : Nat
  len : Nat
  first_page : Nat
deriving DecidableEq

/-- The fields of the block layer's `struct bio` that the driver reads or writes. -/
structure bio where
  /-- address of the next bio of the list, `0` for `NULL` -/
  bi_next : Nat
  bi_sector : Nat
  /-- bit 0 is the data direction -/
  bi_rw : Nat
  bi_vcnt : Nat
  bi_idx : Nat
deriving DecidableEq

/-- The record `struct cudaram_dev`, without the locks, the wait queue head and the
registration handles.  Of `disk` and `queue` it keeps the two values the driver sets. -/
structure cudaram_dev where
  state : Nat
  user_buffer : Nat
  bio_first : Nat
  bio_last : Nat
  current_work : Nat
  /-- the value last given to `set_capacity(cudaram->disk, _)` -/
  capacity : Nat
  /-- the value last given to `blk_queue_max_hw_sectors(cudaram->queue, _)` -/
  max_hw_sectors : Nat
deriving DecidableEq

/-- One device, the kernel memory of the bios, and the completions signalled so far. -/
structure kstate where
  dev : cudaram_dev
  mem : Nat → bio
  /-- the calls `bio_endio(bio, error)` made so far, oldest first -/
  ended : List (Nat × Int)

/-- What user space does during one `CUDARAM_WORK` ioctl. -/
structure uenv where
  /-- a signal is pending when the caller has to sleep -/
  signal : Bool
  /-- bytes that `copy_from_user` leaves uncopied for segment `i` of a read payload -/
  payload_left : Nat → Nat
  /-- bytes that `copy_to_user` leaves uncopied when staging segment `i` of a write -/
  stage_left : Nat → Nat
  /-- the final `copy_to_user(user_work, &work, sizeof(work))` succeeds -/
  writable : Bool

/-- How far a `CUDARAM_WORK` ioctl got. -/
inductive ioctl_ret where
  /-- the call returned `err` -/
  | returned (err : Int)
  /-- the caller sleeps in `wait_event_interruptible`, holding its local `work` -/
  | asleep (work : cudaram_work_t)
deriving DecidableEq

/-- Result of `cudaram_work`. -/
structure work_result where
  ret : ioctl_ret
  /-- the `struct cudaram_work` copied back to user space, if the copy was made -/
  user_work : Option cudaram_work_t
  st : kstate

/-! ## Block layer helpers -/

/-- Block layer `bio_data_dir`. -/
def bio_data_dir (b : bio) : Nat := b.bi_rw % 2

/-- Block layer `bio_segments`. -/
def bio_segments (b : bio) : Nat := b.bi_vcnt - b.bi_idx

/-- The indices `bio_for_each_segment` runs through. -/
def bio_segment_indices (b : bio) : List Nat := List.range' b.bi_idx (b.bi_vcnt - b.bi_idx)

/-- The assignment `p->bi_next = next`. -/
def set_bi_next (s : kstate) (p next : Nat) : kstate :=
  { s with mem := fun q => if q = p then { s.mem q with bi_next := next } else s.mem q }

/-- Block layer `bio_endio(bio, error)`: the completion of the request. -/
def bio_endio (s : kstate) (p : Nat) (error : Int) : kstate :=
  { s with ended := s.ended ++ [(p, error)] }

/-- Block layer `bio_io_error(bio)`, which is `bio_endio(bio, -EIO)`. -/
def bio_io_error (s : kstate) (p : Nat) : kstate := bio_endio s p (- EIO_code)

/-- A loop of user copies over the segments: the first non-zero result stops it. -/
def copy_segments (left : Nat → Nat) : List Nat → Nat
  | [] => 0
  | i :: rest => if left i ≠ 0 then left i else copy_segments left rest

/-! ## The driver -/

/-- Source `cudaram_push_bio`: add bio to the queue. -/
def cudaram_push_bio (s : kstate) (b : Nat) : kstate :=
  let s1 := set_bi_next s b 0
  if s1.dev.bio_last ≠ 0 then
    let s2 := set_bi_next s1 s1.dev.bio_last b
    { s2 with dev := { s2.dev with bio_last := b } }
  else
    { s1 with dev := { s1.dev with bio_first := b, bio_last := b } }

/-- Source `cudaram_pop_bio`: get the first bio in the queue. -/
def cudaram_pop_bio (s : kstate) : Nat × kstate :=
  let b := s.dev.bio_first
  if b ≠ 0 then
    let s1 := { s with dev := { s.dev with bio_first := (s.mem b).bi_next } }
    if s1.dev.bio_last = b then
      (b, { s1 with dev := { s1.dev with bio_last := 0 } })
    else
      (b, s1)
  else
    (b, s)

/-- Source `cudaram_flush_bio`: flush all the pending bios.  The `while` loop follows
pointers, so it is run with fuel; `none` means the fuel ran out before `NULL` was reached. -/
def cudaram_flush_bio : Nat → kstate → Nat → Option kstate
  | 0, s, b => if b ≠ 0 then none else some s
  | fuel + 1, s, b =>
    if b ≠ 0 then
      let next := (s.mem b).bi_next
      let s1 := set_bi_next s b 0
      let s2 := bio_io_error s1 b
      cudaram_flush_bio fuel s2 next
    else
      some s

/-- Source `cudaram_make_request`.  `wake_up` changes nothing in the state: a sleeper
re-runs `cudaram_work_wait`. -/
def cudaram_make_request (s : kstate) (b : Nat) : Int × kstate :=
  let ready := decide (s.dev.state = CUDARAM_STATE_READY)
  let s1 := if ready then cudaram_push_bio s b else s
  if ready then (0, s1) else (0, bio_io_error s1 b)

/-- Source `cudaram_alloc`: the fields of a freshly allocated (`kzalloc`) device. -/
def cudaram_alloc : cudaram_dev :=
  { state := CUDARAM_STATE_FREE, user_buffer := 0, bio_first := 0, bio_last := 0,
    current_work := 0, capacity := 0, max_hw_sectors := 0 }

/-- Source `cudaram_take`: marks the device as taken if it is free. -/
def cudaram_take (s : kstate) : Int × kstate :=
  let state := s.dev.state
  let s1 := if state = CUDARAM_STATE_FREE then
      { s with dev := { s.dev with state := CUDARAM_STATE_TAKEN } } else s
  (if state = CUDARAM_STATE_FREE then 1 else 0, s1)

/-- Source `cudaram_activate`; `uparams` is `none` when `copy_from_user` faults. -/
def cudaram_activate (s : kstate) (uparams : Option cudaram_params) : Int × kstate :=
  let state := s.dev.state
  if state ≠ CUDARAM_STATE_TAKEN then (- EBUSY, s)
  else
    match uparams with
    | none => (- EFAULT, s)
    | some params =>
      let d1 := { s.dev with user_buffer := params.buffer }
      let d2 := { d1 with
        max_hw_sectors := (params.buffer_size <<< (MB_SHIFT - SECTOR_SHIFT)) % 2 ^ 32 }
      let d3 := { d2 with capacity := (params.capacity <<< (MB_SHIFT - SECTOR_SHIFT)) % 2 ^ 64 }
      (0, { s with dev := { d3 with state := CUDARAM_STATE_READY } })

/-- Source `cudaram_deactivate`; `bdev_err` says that `bdget_disk` gave an error pointer.
The fuel is that of the flush loop. -/
def cudaram_deactivate (fuel : Nat) (s : kstate) (bdev_err : Bool) : Option kstate :=
  let b := s.dev.bio_first
  let s1 := { s with dev := { s.dev with
    state := CUDARAM_STATE_FREE, bio_first := 0, bio_last := 0 } }
  match cudaram_flush_bio fuel s1 b with
  | none => none
  | some s2 =>
    if bdev_err then some s2
    else some { s2 with dev := { s2.dev with capacity := 0 } }

/-- Source `cudaram_ctl_open`; the argument is what `cudaram_get` returned. -/
def cudaram_ctl_open (cudaram : Option kstate) : Int × Option kstate :=
  match cudaram with
  | none => (- ENODEV, none)
  | some s =>
    let r := cudaram_take s
    if r.1 = 0 then (- EBUSY, some r.2) else (0, some r.2)

/-- Source `cudaram_ctl_release`; the argument is `filp->private_data`. -/
def cudaram_ctl_release (fuel : Nat) (cudaram : Option kstate) (bdev_err : Bool) :
    Option (Int × Option kstate) :=
  match cudaram with
  | none => some (- ENODEV, none)
  | some s =>
    match cudaram_deactivate fuel s bdev_err with
    | none => none
    | some s1 => some (0, some s1)

/-- Source `cudaram_process_work`: acknowledge the writes, get data for reads. -/
def cudaram_process_work (s : kstate) (work : cudaram_work_t) (env : uenv) :
    Int × kstate × cudaram_work_t :=
  let b := s.dev.current_work
  if work.id = 0 then (0, s, work)
  else if b = 0 then (0, s, work)
  else if b ≠ work.id then (-1, s, work)
  else
    let err : Nat :=
      if bio_data_dir (s.mem b) = READ then
        copy_segments env.payload_left (bio_segment_indices (s.mem b))
      else 0
    if err ≠ 0 then ((err : Int), s, work)
    else
      let work1 := { work with id := 0 }
      let s1 := { s with dev := { s.dev with current_work := 0 } }
      (0, bio_endio s1 b 0, work1)

/-- Source `cudaram_get_work`. -/
def cudaram_get_work (PAGE_SHIFT : Nat) (s : kstate) (work : cudaram_work_t) (env : uenv) :
    Int × kstate × cudaram_work_t :=
  let r : Nat × kstate :=
    if s.dev.current_work ≠ 0 then (s.dev.current_work, s)
    else
      let p := cudaram_pop_bio s
      (p.1, { p.2 with dev := { p.2.dev with current_work := p.1 } })
  let b := r.1
  let s1 := r.2
  if b = 0 then (0, s1, { work with id := 0, len := 0 })
  else
    let work1 : cudaram_work_t :=
      { id := b,
        dir := bio_data_dir (s1.mem b),
        len := bio_segments (s1.mem b) % 2 ^ 32,
        first_page := ((s1.mem b).bi_sector >>> SECTORS_PER_PAGE_SHIFT PAGE_SHIFT) % 2 ^ 32 }
    if work1.dir = WRITE then
      if copy_segments env.stage_left (bio_segment_indices (s1.mem b)) ≠ 0 then
        (- EFAULT, s1, work1)
      else (0, s1, work1)
    else (0, s1, work1)

/-- The label `out:` of `cudaram_work`: copy `work` back and return. -/
def cudaram_work_out (s : kstate) (work : cudaram_work_t) (env : uenv) (err : Int) :
    work_result :=
  if env.writable then { ret := ioctl_ret.returned err, user_work := some work, st := s }
  else { ret := ioctl_ret.returned (- EFAULT), user_work := none, st := s }

/-- Source `cudaram_work`, from `wait_event_interruptible` on.  The wait returns at once
when `bio_first != NULL`; otherwise the caller sleeps, and is interrupted if a signal is
pending.  A sleeper that is woken runs this function again on the state of that moment. -/
def cudaram_work_wait (PAGE_SHIFT : Nat) (s : kstate) (work : cudaram_work_t) (env : uenv) :
    work_result :=
  if s.dev.bio_first ≠ 0 then
    let g := cudaram_get_work PAGE_SHIFT s work env
    cudaram_work_out g.2.1 g.2.2 env 0
  else if env.signal then
    cudaram_work_out s work env (- ERESTARTSYS)
  else
    { ret := ioctl_ret.asleep work, user_work := none, st := s }

/-- Source `cudaram_work`: process completed work and return new work.  `user_work` is
`none` when the first `copy_from_user` faults. -/
def cudaram_work (PAGE_SHIFT : Nat) (s : kstate) (user_work : Option cudaram_work_t)
    (env : uenv) : work_result :=
  match user_work with
  | none => { ret := ioctl_ret.returned (- EFAULT), user_work := none, st := s }
  | some work =>
    let p := cudaram_process_work s work env
    if p.1 ≠ 0 then { ret := ioctl_ret.returned p.1, user_work := none, st := p.2.1 }
    else
      let work1 := { p.2.2 with id := 0 }
      cudaram_work_wait PAGE_SHIFT p.2.1 work1 env

/-! ## The queue a state represents -/

/-- Following `bi_next` from `p` visits exactly the bios of `l`, in order, and then
reaches `NULL`. -/
def chain (mem : Nat → bio) : Nat → List Nat → Prop
  | p, [] => p = 0
  | p, b :: l => p = b ∧ b ≠ 0 ∧ chain mem (mem b).bi_next l

/-- The pending list of `s` holds exactly the requests `l`, oldest first: the list that
starts at `bio_first` spells `l`, no bio occurs twice, and `bio_last` is the last bio
(`NULL` when the list is empty). -/
def is_queue (s : kstate) (l : List Nat) : Prop :=
  chain s.mem s.dev.bio_first l ∧ l.Nodup ∧ s.dev.bio_last = l.getLastD 0

/-- Whether a list is spelt by the memory can be computed. -/
def chain_decidable (mem : Nat → bio) : ∀ (p : Nat) (l : List Nat), Decidable (chain mem p l)
  | p, [] => inferInstanceAs (Decidable (p = 0))
  | p, b :: l =>
    have : Decidable (chain mem (mem b).bi_next l) := chain_decidable mem _ l
    inferInstanceAs (Decidable (p = b ∧ b ≠ 0 ∧ chain mem (mem b).bi_next l))

instance (mem : Nat → bio) (p : Nat) (l : List Nat) : Decidable (chain mem p l) :=
  chain_decidable mem p l

instance (s : kstate) (l : List Nat) : Decidable (is_queue s l) :=
  inferInstanceAs (Decidable (chain s.mem s.dev.bio_first l ∧ l.Nodup
    ∧ s.dev.bio_last = l.getLastD 0))

/-- The front end submits the requests of `l` one after the other. -/
def submit_all (s : kstate) : List Nat → kstate
  | [] => s
  | b :: l => submit_all (cudaram_make_request s b).2 l

/-- Source `work` of cudaramd.c, seen from the kernel: one `CUDARAM_WORK` ioctl per element
of `envs`, each passing the `struct cudaram_work` the previous one wrote back.  The loop
ends when an ioctl fails (the daemon returns) or sleeps.  The result is the list of
work items received and the last state. -/
def work_loop (PAGE_SHIFT : Nat) : kstate → cudaram_work_t → List uenv →
    List cudaram_work_t × kstate
  | s, _, [] => ([], s)
  | s, w, env :: envs =>
    let r := cudaram_work PAGE_SHIFT s (some w) env
    match r.ret, r.user_work with
    | ioctl_ret.returned 0, some w1 =>
      let rest := work_loop PAGE_SHIFT r.st w1 envs
      (w1 :: rest.1, rest.2)
    | _, _ => ([], r.st)

/-- The work item that describes the bio at address `b`, as `cudaram_get_work` fills it. -/
def work_of (PAGE_SHIFT : Nat) (mem : Nat → bio) (b : Nat) : cudaram_work_t :=
  { id := b,
    dir := bio_data_dir (mem b),
    len := bio_segments (mem b) % 2 ^ 32,
    first_page := ((mem b).bi_sector >>> SECTORS_PER_PAGE_SHIFT PAGE_SHIFT) % 2 ^ 32 }

/-- A user-space environment in which no copy faults and no signal arrives. -/
def quiet : uenv :=
  { signal := false, payload_left := fun _ => 0, stage_left := fun _ => 0, writable := true }

/-! ## Concrete states used to instantiate the theorems -/

/-- A kernel memory with three requests: at address 1 a read of two pages starting at
sector 80 (page 10 when pages are 4096 bytes), at address 2 a write of one page at
sector 0, at address 3 a read of one page at sector 8.  Every `bi_next` is `NULL`. -/
def mem0 : Nat → bio := fun q =>
  if q = 1 then { bi_next := 0, bi_sector := 80, bi_rw := 0, bi_vcnt := 2, bi_idx := 0 }
  else if q = 2 then { bi_next := 0, bi_sector := 0, bi_rw := 1, bi_vcnt := 1, bi_idx := 0 }
  else if q = 3 then { bi_next := 0, bi_sector := 8, bi_rw := 0, bi_vcnt := 1, bi_idx := 0 }
  else { bi_next := 0, bi_sector := 0, bi_rw := 0, bi_vcnt := 0, bi_idx := 0 }

/-- A freshly allocated device: Free, nothing pending, nothing current, nothing completed. -/
def st_free : kstate := { dev := cudaram_alloc, mem := mem0, ended := [] }

/-- The device after `open` of the control device: Taken. -/
def st_taken : kstate := (cudaram_take st_free).2

/-- The device after `CUDARAM_ACTIVATE` with a capacity of 100 MB: Ready. -/
def st_ready : kstate :=
  (cudaram_activate st_taken (some { capacity := 100, buffer := 4096, buffer_size := 1 })).2

/-- What can be compared of a state by evaluation: the device record and the completions. -/
def observe (s : kstate) : cudaram_dev × List (Nat × Int) := (s.dev, s.ended)

/-- The Ready device after the front end submitted the read at address 1. -/
def st_one_pending : kstate := (cudaram_make_request st_ready 1).2

/-- The work structure the daemon passes to its first ioctl (`work.id = 0`). -/
def work_none : cudaram_work_t := { id := 0, dir := 0, len := 0, first_page := 0 }

/-- The first exchange of the daemon on `st_one_pending`, with 4096-byte pages. -/
def first_exchange : work_result := cudaram_work 12 st_one_pending (some work_none) quiet

/-- The device once the read at address 1 is the current work and nothing is pending. -/
def st_one_current : kstate := first_exchange.st

/-- A user-space environment in which a signal is pending and no copy faults. -/
def interrupted : uenv := { quiet with signal := true }

/-- The device with the read at address 1 as current work and the requests at addresses 2
and 3 pending, in that order. -/
def st_busy : kstate := (cudaram_make_request (cudaram_make_request st_one_current 2).2 3).2

/-! ## Sequences of operations on one device -/

/-- The operations on one device.  `wake` is a sleeper of `cudaram_work` running on after
a `wake_up`. -/
inductive op where
  | take
  | activate (uparams : Option cudaram_params)
  | submit (b : Nat)
  | exchange (user_work : Option cudaram_work_t) (env : uenv)
  | wake (work : cudaram_work_t) (env : uenv)
  | deactivate (bdev_err : Bool)

/-- The state after one operation; `fuel` bounds the flush loop of every deactivation and
`none` means that it did not suffice. -/
def step (PAGE_SHIFT fuel : Nat) (s : kstate) : op → Option kstate
  | op.take => some (cudaram_take s).2
  | op.activate uparams => some (cudaram_activate s uparams).2
  | op.submit b => some (cudaram_make_request s b).2
  | op.exchange user_work env => some (cudaram_work PAGE_SHIFT s user_work env).st
  | op.wake work env => some (cudaram_work_wait PAGE_SHIFT s work env).st
  | op.deactivate bdev_err => cudaram_deactivate fuel s bdev_err

/-- The state after a sequence of operations. -/
def run (PAGE_SHIFT fuel : Nat) : kstate → List op → Option kstate
  | s, [] => some s
  | s, o :: os =>
    match step PAGE_SHIFT fuel s o with
    | none => none
    | some s1 => run PAGE_SHIFT fuel s1 os

/-- The requests an operation sequence submits, in order. -/
def submitted : List op → List Nat
  | [] => []
  | op.submit b :: os => b :: submitted os
  | _ :: os => submitted os

/-- The bios whose completion has been signalled, oldest first. -/
def ended_bios (s : kstate) : List Nat := s.ended.map Prod.fst

/-- The current request as a list: empty when `current_work` is `NULL`. -/
def current_list (s : kstate) : List Nat :=
  if s.dev.current_work = 0 then [] else [s.dev.current_work]

/-- Every request of `S` is in exactly one place: pending, current, or completed.  Stated
as: the pending requests, the current request and the completed requests together are a
rearrangement of `S`. -/
def accounted (s : kstate) (S : List Nat) : Prop :=
  ∃ l, is_queue s l ∧ List.Perm (l ++ current_list s ++ ended_bios s) S

/-- One session on a fresh device, closed while a request is handed out: open the control
device, activate with capacity 100, the front end submits the read at address 1, the
daemon fetches it with one exchange, and the control device is released. -/
def session_closed_early : List op :=
  [op.take,
   op.activate (some { capacity := 100, buffer := 4096, buffer_size := 1 }),
   op.submit 1,
   op.exchange (some work_none) quiet,
   op.deactivate false]

/-- The session of `session_closed_early`, followed by a second session in which the
write at address 2 is submitted and the daemon makes its first exchange. -/
def second_session : List op :=
  session_closed_early ++
    [op.take,
     op.activate (some { capacity := 100, buffer := 4096, buffer_size := 1 }),
     op.submit 2]

/-- The half of the state/queue invariant that is about the pending list: when the state
is not Ready, `bio_first` and `bio_last` are `NULL`. -/
def pending_empty_unless_ready (s : kstate) : Prop :=
  s.dev.state ≠ CUDARAM_STATE_READY → s.dev.bio_first = 0 ∧ s.dev.bio_last = 0

/-! ## Basic facts about the list operations -/

theorem set_bi_next_mem (s : kstate) (p n q : Nat) :
    (set_bi_next s p n).mem q = if q = p then { s.mem q with bi_next := n } else s.mem q := rfl

theorem set_bi_next_dev (s : kstate) (p n : Nat) : (set_bi_next s p n).dev = s.dev := rfl

theorem set_bi_next_ended (s : kstate) (p n : Nat) : (set_bi_next s p n).ended = s.ended := rfl

theorem chain_congr {m m1 : Nat → bio} :
    ∀ (l : List Nat) (p : Nat), (∀ b ∈ l, (m1 b).bi_next = (m b).bi_next) →
      chain m p l → chain m1 p l
  | [], _, _, h => h
  | b :: l, p, hm, h => by
    obtain ⟨h1, h2, h3⟩ := h
    refine ⟨h1, h2, ?_⟩
    rw [hm b (List.mem_cons_self b l)]
    exact chain_congr l _ (fun c hc => hm c (List.mem_cons_of_mem b hc)) h3

theorem chain_ne_zero {m : Nat → bio} :
    ∀ (l : List Nat) (p : Nat), chain m p l → ∀ b ∈ l, b ≠ 0
  | [], _, _, b, hb => by cases hb
  | c :: l, _, h, b, hb => by
    obtain ⟨_, h2, h3⟩ := h
    rcases List.mem_cons.mp hb with rfl | hb1
    · exact h2
    · exact chain_ne_zero l _ h3 b hb1

theorem chain_nil_iff (m : Nat → bio) (p : Nat) : chain m p [] ↔ p = 0 := Iff.rfl

theorem chain_head_eq_zero_iff {m : Nat → bio} {p : Nat} {l : List Nat} (h : chain m p l) :
    p = 0 ↔ l = [] := by
  cases l with
  | nil => exact ⟨fun _ => rfl, fun _ => h⟩
  | cons b t =>
    obtain ⟨h1, h2, _⟩ := h
    constructor
    · intro hp
      exact absurd (h1 ▸ hp) h2
    · intro hl
      cases hl

theorem getLastD_cons_cons (x y d : Nat) (t : List Nat) :
    (x :: y :: t).getLastD d = (y :: t).getLastD d := rfl

theorem getLastD_mem : ∀ (l : List Nat), l ≠ [] → l.getLastD 0 ∈ l
  | [], h => absurd rfl h
  | x :: t, _ => List.getLast_mem (List.cons_ne_nil x t)

theorem chain_snoc {m m1 : Nat → bio} (b : Nat) (hb : b ≠ 0) (hb0 : (m1 b).bi_next = 0) :
    ∀ (l : List Nat) (p : Nat), l ≠ [] → l.Nodup → b ∉ l → chain m p l →
      (m1 (l.getLastD 0)).bi_next = b →
      (∀ q ∈ l, q ≠ l.getLastD 0 → (m1 q).bi_next = (m q).bi_next) →
      chain m1 p (l ++ [b])
  | [], _, hne, _, _, _, _, _ => absurd rfl hne
  | [x], p, _, _, _, h, hlast, _ => by
    obtain ⟨h1, h2, _⟩ := h
    have hx : (m1 x).bi_next = b := hlast
    exact ⟨h1, h2, by rw [hx]; exact ⟨rfl, hb, hb0⟩⟩
  | x :: y :: t, p, _, hnd, hnot, h, hlast, hrest => by
    obtain ⟨h1, h2, h3⟩ := h
    have hnd1 : (y :: t).Nodup := (List.nodup_cons.mp hnd).2
    have hx : x ∉ y :: t := (List.nodup_cons.mp hnd).1
    have hnot1 : b ∉ y :: t := fun hh => hnot (List.mem_cons_of_mem x hh)
    have hmem : (y :: t).getLastD 0 ∈ y :: t := getLastD_mem _ (List.cons_ne_nil y t)
    have hxl : x ≠ (y :: t).getLastD 0 := fun e => hx (e ▸ hmem)
    rw [getLastD_cons_cons] at hlast
    have hmx : (m1 x).bi_next = (m x).bi_next :=
      hrest x (List.mem_cons_self x _) (by rw [getLastD_cons_cons]; exact hxl)
    have ih := chain_snoc b hb hb0 (y :: t) (m x).bi_next (List.cons_ne_nil y t) hnd1 hnot1 h3
      hlast (fun q hq hne => hrest q (List.mem_cons_of_mem x hq)
        (by rw [getLastD_cons_cons]; exact hne))
    refine ⟨h1, h2, ?_⟩
    rw [hmx]
    exact ih

theorem getLastD_append_singleton (l : List Nat) (b d : Nat) : (l ++ [b]).getLastD d = b := by
  cases l with
  | nil => rfl
  | cons x t =>
    show ((x :: t) ++ [b]).getLast _ = b
    exact List.getLast_append_singleton (x :: t)

/-- Pushing a fresh bio appends it to the queue the state represents. -/
theorem push_bio_is_queue (s : kstate) (l : List Nat) (b : Nat) (hq : is_queue s l)
    (hb : b ≠ 0) (hnot : b ∉ l) : is_queue (cudaram_push_bio s b) (l ++ [b]) := by
  obtain ⟨hc, hnd, hlast⟩ := hq
  have hnd1 : (l ++ [b]).Nodup := by
    rw [List.nodup_append]
    refine ⟨hnd, List.nodup_singleton b, ?_⟩
    intro a ha hab
    rw [List.mem_singleton] at hab
    exact hnot (hab ▸ ha)
  by_cases hl : l = []
  · subst hl
    have hlast0 : s.dev.bio_last = 0 := hlast
    refine ⟨?_, hnd1, ?_⟩
    · simp [cudaram_push_bio, set_bi_next, hlast0, chain, hb]
    · simp [cudaram_push_bio, set_bi_next, hlast0, List.getLastD]
  · have hmem : l.getLastD 0 ∈ l := getLastD_mem l hl
    have hne0 : l.getLastD 0 ≠ 0 := chain_ne_zero l _ hc _ hmem
    have hneb : l.getLastD 0 ≠ b := fun e => hnot (e ▸ hmem)
    have hlast1 : s.dev.bio_last ≠ 0 := by rw [hlast]; exact hne0
    refine ⟨?_, hnd1, ?_⟩
    · simp only [cudaram_push_bio, set_bi_next_dev, hlast1, ne_eq, not_false_eq_true, if_true]
      refine chain_snoc b hb ?_ l _ hl hnd hnot hc ?_ ?_
      · show (if b = s.dev.bio_last then _ else _ : bio).bi_next = 0
        rw [if_neg (by rw [hlast]; exact hneb.symm)]
        simp [set_bi_next]
      · rw [← hlast]
        simp [set_bi_next]
      · intro q hq hql
        have hqb : q ≠ b := fun e => hnot (e ▸ hq)
        show (if q = s.dev.bio_last then _ else _ : bio).bi_next = _
        rw [if_neg (by rw [hlast]; exact hql)]
        simp [set_bi_next, hqb]
    · simp only [cudaram_push_bio, set_bi_next_dev, hlast1, ne_eq, not_false_eq_true, if_true]
      exact (getLastD_append_singleton l b 0).symm

/-- The state `cudaram_pop_bio` leaves when the queue is `b :: l`. -/
theorem pop_bio_cons (s : kstate) (b : Nat) (l : List Nat) (hq : is_queue s (b :: l)) :
    cudaram_pop_bio s
        = (b, { s with dev := { s.dev with
            bio_first := (s.mem b).bi_next, bio_last := l.getLastD 0 } })
      ∧ is_queue { s with dev := { s.dev with
            bio_first := (s.mem b).bi_next, bio_last := l.getLastD 0 } } l := by
  obtain ⟨hc, hnd, hlast⟩ := hq
  obtain ⟨h1, h2, h3⟩ := hc
  have hnd1 : l.Nodup := (List.nodup_cons.mp hnd).2
  have hbl : b ∉ l := (List.nodup_cons.mp hnd).1
  refine ⟨?_, h3, hnd1, rfl⟩
  have hf : s.dev.bio_first ≠ 0 := by rw [h1]; exact h2
  cases l with
  | nil =>
    have hlb : s.dev.bio_last = b := hlast
    simp [cudaram_pop_bio, h1, hlb, List.getLastD, h2]
  | cons y t =>
    have hmem : (y :: t).getLastD 0 ∈ y :: t := getLastD_mem _ (List.cons_ne_nil y t)
    have hlast1 : s.dev.bio_last = (y :: t).getLastD 0 := hlast
    have hne : s.dev.bio_last ≠ b := by
      rw [hlast1]
      exact fun e => hbl (e ▸ hmem)
    have e1 : cudaram_pop_bio s
        = (b, { s with dev := { s.dev with bio_first := (s.mem b).bi_next } }) := by
      simp [cudaram_pop_bio, h1, hne, h2]
    rw [e1, ← hlast1]

theorem pop_bio_nil (s : kstate) (h : s.dev.bio_first = 0) : cudaram_pop_bio s = (0, s) := by
  simp [cudaram_pop_bio, h]

/-- The flush loop, started at the head of a well-formed list, terminates within
`l.length` iterations and fails the bios of the list in order. -/
theorem flush_bio_chain :
    ∀ (l : List Nat) (fuel : Nat) (s : kstate) (p : Nat), chain s.mem p l → l.Nodup →
      l.length ≤ fuel →
      ∃ s1, cudaram_flush_bio fuel s p = some s1 ∧ s1.dev = s.dev
        ∧ s1.ended = s.ended ++ l.map (fun b => (b, - EIO_code))
        ∧ (∀ q, q ∉ l → s1.mem q = s.mem q)
        ∧ (∀ q, q ∈ l → (s1.mem q).bi_next = 0)
  | [], fuel, s, p, hc, _, _ => by
    have hp : p = 0 := hc
    subst hp
    refine ⟨s, ?_, rfl, by simp, fun _ _ => rfl, fun q hq => by cases hq⟩
    cases fuel <;> simp [cudaram_flush_bio]
  | b :: l, 0, _, _, _, _, hlen => by simp at hlen
  | b :: l, fuel + 1, s, p, hc, hnd, hlen => by
    obtain ⟨h1, h2, h3⟩ := hc
    subst h1
    have hnd1 : l.Nodup := (List.nodup_cons.mp hnd).2
    have hbl : p ∉ l := (List.nodup_cons.mp hnd).1
    have hc1 : chain (bio_io_error (set_bi_next s p 0) p).mem (s.mem p).bi_next l := by
      refine chain_congr l _ ?_ h3
      intro c hc
      have hcp : c ≠ p := fun e => hbl (e ▸ hc)
      simp [bio_io_error, bio_endio, set_bi_next, hcp]
    obtain ⟨s1, e1, e2, e3, e4, e5⟩ := flush_bio_chain l fuel _ _ hc1 hnd1
      (Nat.le_of_succ_le_succ hlen)
    refine ⟨s1, ?_, ?_, ?_, ?_, ?_⟩
    · simp only [cudaram_flush_bio, h2, ne_eq, not_false_eq_true, if_true]
      exact e1
    · rw [e2]; rfl
    · rw [e3]
      simp [bio_io_error, bio_endio, set_bi_next]
    · intro q hq
      have hq1 : q ∉ l := fun h => hq (List.mem_cons_of_mem p h)
      have hqp : q ≠ p := fun e => hq (by simp [e])
      rw [e4 q hq1]
      simp [bio_io_error, bio_endio, set_bi_next, hqp]
    · intro q hq
      rcases List.mem_cons.mp hq with rfl | hq1
      · rw [e4 q hbl]
        simp [bio_io_error, bio_endio, set_bi_next]
      · exact e5 q hq1

/-! ## Fields the list operations leave alone -/

theorem push_bio_ended (s : kstate) (b : Nat) : (cudaram_push_bio s b).ended = s.ended := by
  by_cases h : s.dev.bio_last = 0 <;> simp [cudaram_push_bio, set_bi_next, h]

theorem push_bio_state (s : kstate) (b : Nat) :
    (cudaram_push_bio s b).dev.state = s.dev.state
      ∧ (cudaram_push_bio s b).dev.current_work = s.dev.current_work
      ∧ (cudaram_push_bio s b).dev.user_buffer = s.dev.user_buffer
      ∧ (cudaram_push_bio s b).dev.capacity = s.dev.capacity := by
  by_cases h : s.dev.bio_last = 0 <;> simp [cudaram_push_bio, set_bi_next, h]

theorem is_queue_st_ready : is_queue st_ready [] := ⟨rfl, List.nodup_nil, rfl⟩

/-! ## C5: take -/

/-- C5 (take).  `cudaram_take` reports success exactly when the state before the call is
Free.  On success the only change is that the state becomes Taken; on failure nothing
changes at all; the pending list, the current request, the buffer address, the bios and
the completions are the same in both cases.  Two takes in a row on a Free device give one
success followed by one failure, and the matching two `open` calls return 0 and then
`-EBUSY`. -/
theorem take_succeeds_iff_free (s : kstate) :
    ((cudaram_take s).1 ≠ 0 ↔ s.dev.state = CUDARAM_STATE_FREE)
    ∧ (s.dev.state = CUDARAM_STATE_FREE →
        cudaram_take s = (1, { s with dev := { s.dev with state := CUDARAM_STATE_TAKEN } }))
    ∧ (s.dev.state ≠ CUDARAM_STATE_FREE → cudaram_take s = (0, s))
    ∧ ((cudaram_take s).2.dev.bio_first = s.dev.bio_first
        ∧ (cudaram_take s).2.dev.bio_last = s.dev.bio_last
        ∧ (cudaram_take s).2.dev.current_work = s.dev.current_work
        ∧ (cudaram_take s).2.dev.user_buffer = s.dev.user_buffer
        ∧ (cudaram_take s).2.mem = s.mem
        ∧ (cudaram_take s).2.ended = s.ended)
    ∧ (s.dev.state = CUDARAM_STATE_FREE →
        (cudaram_take s).1 = 1 ∧ (cudaram_take (cudaram_take s).2).1 = 0
        ∧ (cudaram_take (cudaram_take s).2).2 = (cudaram_take s).2
        ∧ (cudaram_ctl_open (some s)).1 = 0
        ∧ (cudaram_ctl_open (cudaram_ctl_open (some s)).2).1 = - EBUSY) := by
  by_cases h : s.dev.state = CUDARAM_STATE_FREE
  · simp [cudaram_take, cudaram_ctl_open, h, CUDARAM_STATE_FREE, CUDARAM_STATE_TAKEN]
  · simp [cudaram_take, cudaram_ctl_open, h]

/-- C5 at concrete devices: a Free device is taken once, a second take and a take of a Ready
device fail and change nothing. -/
theorem take_succeeds_iff_free_witness :
    st_free.dev.state = CUDARAM_STATE_FREE
    ∧ (cudaram_take st_free).1 = 1
    ∧ (cudaram_take st_free).2.dev.state = CUDARAM_STATE_TAKEN
    ∧ (cudaram_take (cudaram_take st_free).2).1 = 0
    ∧ (cudaram_ctl_open (cudaram_ctl_open (some st_free)).2).1 = - EBUSY
    ∧ st_ready.dev.state ≠ CUDARAM_STATE_FREE
    ∧ cudaram_take st_ready = (0, st_ready) :=
  have h := (take_succeeds_iff_free st_free).2.2.2.2 rfl
  ⟨rfl, h.1, rfl, h.2.1, h.2.2.2.2, by decide,
    (take_succeeds_iff_free st_ready).2.2.1 (by decide)⟩

/-! ## C6: activate -/

/-- C6, as stated, fails for large capacities.  A Taken device is activated with a
readable parameter block whose capacity is `2 ^ 53` (9007199254740992).  The call
succeeds, but the disk capacity it sets is 0, not `2 ^ 53 * 2048`
(18446744073709551616): the shift is done on a `__u64` and the top bit falls off. -/
theorem activate_capacity_counterexample :
    st_taken.dev.state = CUDARAM_STATE_TAKEN
    ∧ (cudaram_activate st_taken
        (some { capacity := 9007199254740992, buffer := 4096, buffer_size := 1 })).1 = 0
    ∧ (cudaram_activate st_taken
        (some { capacity := 9007199254740992, buffer := 4096, buffer_size := 1 })).2.dev.state
        = CUDARAM_STATE_READY
    ∧ (cudaram_activate st_taken
        (some { capacity := 9007199254740992, buffer := 4096, buffer_size := 1 })).2.dev.capacity
        = 0
    ∧ 9007199254740992 * 2048 = 18446744073709551616
    ∧ (cudaram_activate st_taken
        (some { capacity := 9007199254740992, buffer := 4096, buffer_size := 1 })).2.dev.capacity
        ≠ 9007199254740992 * 2048 := by
  refine ⟨by decide, by decide, by decide, by decide, by decide, by decide⟩

/-- C6, amended.  With a readable parameter block, `cudaram_activate` returns 0 exactly
when the state before the call is Taken.  On success the state is Ready, the buffer
address is `params.buffer` and the disk capacity is `params.capacity` shifted left by 11 as
a `__u64`, that is `params.capacity * 2048` reduced modulo `2 ^ 64`, which is
`params.capacity * 2048` itself for every capacity below `2 ^ 53`; the pending list, the
current request, the bios and the completions are untouched.  From any other state (Free,
Ready) the call returns `-EBUSY` and changes nothing. -/
theorem activate_succeeds_iff_taken (s : kstate) (params : cudaram_params) :
    ((cudaram_activate s (some params)).1 = 0 ↔ s.dev.state = CUDARAM_STATE_TAKEN)
    ∧ (s.dev.state = CUDARAM_STATE_TAKEN →
        (cudaram_activate s (some params)).2.dev.state = CUDARAM_STATE_READY
        ∧ (cudaram_activate s (some params)).2.dev.user_buffer = params.buffer
        ∧ (cudaram_activate s (some params)).2.dev.capacity
            = (params.capacity * 2048) % 2 ^ 64
        ∧ (params.capacity < 2 ^ 53 →
            (cudaram_activate s (some params)).2.dev.capacity = params.capacity * 2048)
        ∧ (cudaram_activate s (some params)).2.dev.bio_first = s.dev.bio_first
        ∧ (cudaram_activate s (some params)).2.dev.bio_last = s.dev.bio_last
        ∧ (cudaram_activate s (some params)).2.dev.current_work = s.dev.current_work
        ∧ (cudaram_activate s (some params)).2.mem = s.mem
        ∧ (cudaram_activate s (some params)).2.ended = s.ended)
    ∧ (s.dev.state ≠ CUDARAM_STATE_TAKEN →
        cudaram_activate s (some params) = (- EBUSY, s)) := by
  by_cases h : s.dev.state = CUDARAM_STATE_TAKEN
  · have hsh : params.capacity <<< (MB_SHIFT - SECTOR_SHIFT) = params.capacity * 2048 := by
      rw [Nat.shiftLeft_eq]
      rfl
    refine ⟨?_, ?_, fun hn => absurd h hn⟩
    · simp [cudaram_activate, h]
    · intro _
      refine ⟨?_, ?_, ?_, ?_, ?_, ?_, ?_, ?_, ?_⟩ <;>
        simp only [cudaram_activate, h, ne_eq, not_true_eq_false, if_false, hsh]
      intro hlt
      exact Nat.mod_eq_of_lt (by omega)
  · refine ⟨?_, fun hy => absurd hy h, ?_⟩
    · simp [cudaram_activate, h, EBUSY]
    · intro _
      simp [cudaram_activate, h]

/-- C6 amended, at concrete devices: a Taken device is activated with a capacity of 100 MB and gets
204800 sectors; activating a Free device fails with `-EBUSY` and changes nothing. -/
theorem activate_succeeds_iff_taken_witness :
    st_taken.dev.state = CUDARAM_STATE_TAKEN
    ∧ (cudaram_activate st_taken
        (some { capacity := 100, buffer := 4096, buffer_size := 1 })).1 = 0
    ∧ st_ready.dev.state = CUDARAM_STATE_READY
    ∧ st_ready.dev.user_buffer = 4096
    ∧ st_ready.dev.capacity = 204800
    ∧ st_free.dev.state ≠ CUDARAM_STATE_TAKEN
    ∧ cudaram_activate st_free (some { capacity := 100, buffer := 4096, buffer_size := 1 })
        = (- EBUSY, st_free) :=
  have h := activate_succeeds_iff_taken st_taken
    { capacity := 100, buffer := 4096, buffer_size := 1 }
  ⟨rfl, h.1.mpr rfl, (h.2.1 rfl).1, (h.2.1 rfl).2.1, (h.2.1 rfl).2.2.2.1 (by decide),
    by decide,
    (activate_succeeds_iff_taken st_free
      { capacity := 100, buffer := 4096, buffer_size := 1 }).2.2 (by decide)⟩

/-! ## C7: submit -/

/-- C7 (submit).  Let the pending list of the device hold the requests `l`, and let `b` be
a request that is not already pending (a non-`NULL` bio).  `cudaram_make_request` returns 0
without waiting.  If the state is Ready, the pending list afterwards holds `l ++ [b]` and
nothing is completed.  If the state is not Ready (Free or Taken), `b` is completed once,
with `-EIO`, and nothing else changes, so the pending list still holds `l`.  State and
current request are the same in both cases. -/
theorem make_request_appends_or_fails (s : kstate) (l : List Nat) (b : Nat)
    (hq : is_queue s l) (hb : b ≠ 0) (hnot : b ∉ l) :
    (cudaram_make_request s b).1 = 0
    ∧ (s.dev.state = CUDARAM_STATE_READY →
        is_queue (cudaram_make_request s b).2 (l ++ [b])
        ∧ (cudaram_make_request s b).2.ended = s.ended)
    ∧ (s.dev.state ≠ CUDARAM_STATE_READY →
        (cudaram_make_request s b).2 = { s with ended := s.ended ++ [(b, - EIO_code)] }
        ∧ is_queue (cudaram_make_request s b).2 l)
    ∧ (cudaram_make_request s b).2.dev.state = s.dev.state
    ∧ (cudaram_make_request s b).2.dev.current_work = s.dev.current_work := by
  by_cases h : s.dev.state = CUDARAM_STATE_READY
  · have e : cudaram_make_request s b = (0, cudaram_push_bio s b) := by
      simp [cudaram_make_request, h]
    rw [e]
    exact ⟨rfl, fun _ => ⟨push_bio_is_queue s l b hq hb hnot, push_bio_ended s b⟩,
      fun hn => absurd h hn, (push_bio_state s b).1, (push_bio_state s b).2.1⟩
  · have e : cudaram_make_request s b
        = (0, { s with ended := s.ended ++ [(b, - EIO_code)] }) := by
      simp [cudaram_make_request, h, bio_io_error, bio_endio]
    rw [e]
    exact ⟨rfl, fun hy => absurd hy h, fun _ => ⟨rfl, hq⟩, rfl, rfl⟩

/-- C7 at concrete devices: on the Ready device the read at address 1 is queued, and the
write at address 2 is then queued behind it; on the Free device the read is failed at
once. -/
theorem make_request_appends_or_fails_witness :
    is_queue st_ready [] ∧ st_ready.dev.state = CUDARAM_STATE_READY
    ∧ is_queue (cudaram_make_request st_ready 1).2 [1]
    ∧ (cudaram_make_request st_ready 1).2.ended = []
    ∧ st_free.dev.state ≠ CUDARAM_STATE_READY
    ∧ (cudaram_make_request st_free 1).2.ended = [(1, - EIO_code)]
    ∧ is_queue (cudaram_make_request st_free 1).2 []
    ∧ is_queue st_one_pending [1] ∧ st_one_pending.dev.state = CUDARAM_STATE_READY
    ∧ is_queue (cudaram_make_request st_one_pending 2).2 [1, 2]
    ∧ (cudaram_make_request st_one_pending 2).2.ended = [] :=
  have h := make_request_appends_or_fails st_ready [] 1 is_queue_st_ready (by decide)
    (List.not_mem_nil 1)
  have g := make_request_appends_or_fails st_free [] 1 ⟨rfl, List.nodup_nil, rfl⟩ (by decide)
    (List.not_mem_nil 1)
  have k := make_request_appends_or_fails st_one_pending [1] 2 (by decide) (by decide)
    (by decide)
  ⟨is_queue_st_ready, rfl, (h.2.1 rfl).1, (h.2.1 rfl).2, by decide,
    congrArg kstate.ended (g.2.2.1 (by decide)).1, (g.2.2.1 (by decide)).2,
    by decide, by decide, (k.2.1 (by decide)).1, (k.2.1 (by decide)).2⟩

/-! ## The two halves of the exchange -/

theorem process_work_id_zero (s : kstate) (w : cudaram_work_t) (env : uenv) (h : w.id = 0) :
    cudaram_process_work s w env = (0, s, w) := by
  simp [cudaram_process_work, h]

theorem process_work_no_current (s : kstate) (w : cudaram_work_t) (env : uenv)
    (h : s.dev.current_work = 0) : cudaram_process_work s w env = (0, s, w) := by
  by_cases h0 : w.id = 0 <;> simp [cudaram_process_work, h, h0]

theorem process_work_mismatch (s : kstate) (w : cudaram_work_t) (env : uenv)
    (hcur : s.dev.current_work ≠ 0) (hid : w.id ≠ 0) (hne : w.id ≠ s.dev.current_work) :
    cudaram_process_work s w env = (-1, s, w) := by
  have hne1 : ¬ s.dev.current_work = w.id := fun e => hne e.symm
  simp [cudaram_process_work, hcur, hid, hne1]

theorem process_work_ack (s : kstate) (w : cudaram_work_t) (env : uenv)
    (hcur : s.dev.current_work ≠ 0) (hid : w.id = s.dev.current_work)
    (hcopy : bio_data_dir (s.mem s.dev.current_work) = READ →
      copy_segments env.payload_left (bio_segment_indices (s.mem s.dev.current_work)) = 0) :
    cudaram_process_work s w env
      = (0, { s with dev := { s.dev with current_work := 0 },
                     ended := s.ended ++ [(s.dev.current_work, 0)] },
          { w with id := 0 }) := by
  have hid0 : w.id ≠ 0 := by rw [hid]; exact hcur
  by_cases hr : bio_data_dir (s.mem s.dev.current_work) = READ
  · simp [cudaram_process_work, hcur, hid0, hid, hr, hcopy hr, bio_endio]
  · simp [cudaram_process_work, hcur, hid0, hid, hr, bio_endio]

theorem process_work_copy_fault (s : kstate) (w : cudaram_work_t) (env : uenv)
    (hcur : s.dev.current_work ≠ 0) (hid : w.id = s.dev.current_work)
    (hr : bio_data_dir (s.mem s.dev.current_work) = READ)
    (hcopy : copy_segments env.payload_left (bio_segment_indices (s.mem s.dev.current_work))
      ≠ 0) :
    cudaram_process_work s w env
      = (((copy_segments env.payload_left
            (bio_segment_indices (s.mem s.dev.current_work)) : Nat) : Int), s, w) := by
  have hid0 : w.id ≠ 0 := by rw [hid]; exact hcur
  simp [cudaram_process_work, hcur, hid0, hid, hr, hcopy]

/-- With a current request, `cudaram_get_work` describes that request again and changes
nothing. -/
theorem get_work_current (P : Nat) (s : kstate) (w : cudaram_work_t) (env : uenv)
    (hcur : s.dev.current_work ≠ 0) :
    (cudaram_get_work P s w env).2 = (s, work_of P s.mem s.dev.current_work) := by
  unfold cudaram_get_work
  simp only [hcur, ne_eq, not_false_eq_true, if_true, if_false, work_of]
  split
  · split <;> rfl
  · rfl

/-- Without a current request, `cudaram_get_work` pops the head of a non-empty queue, makes
it the current request and describes it. -/
theorem get_work_pop (P : Nat) (s : kstate) (w : cudaram_work_t) (env : uenv) (b : Nat)
    (l : List Nat) (hcur : s.dev.current_work = 0) (hq : is_queue s (b :: l)) :
    (cudaram_get_work P s w env).2
      = ({ s with dev := { s.dev with
            bio_first := (s.mem b).bi_next, bio_last := l.getLastD 0, current_work := b } },
          work_of P s.mem b) := by
  have hb : b ≠ 0 := hq.1.2.1
  unfold cudaram_get_work
  simp only [hcur, ne_eq, not_true_eq_false, if_false, (pop_bio_cons s b l hq).1, hb, work_of]
  split
  · split <;> rfl
  · rfl

theorem work_out_st (s : kstate) (w : cudaram_work_t) (env : uenv) (err : Int) :
    (cudaram_work_out s w env err).st = s := by
  unfold cudaram_work_out
  split <;> rfl

theorem work_out_user_work (s : kstate) (w w1 : cudaram_work_t) (env : uenv) (err : Int)
    (h : (cudaram_work_out s w env err).user_work = some w1) : w1 = w := by
  unfold cudaram_work_out at h
  split at h
  · exact (Option.some.inj h).symm
  · cases h

theorem work_out_writable (s : kstate) (w : cudaram_work_t) (env : uenv) (err : Int)
    (h : env.writable = true) :
    cudaram_work_out s w env err
      = { ret := ioctl_ret.returned err, user_work := some w, st := s } := by
  simp [cudaram_work_out, h]

/-! ## C4: protocol mismatch -/

/-- C4, as stated, fails when the device has no current request.  On the Ready device with
the read at address 1 pending and nothing current, an exchange that passes the completed id
7 (not zero, and not the id of a current request) returns 0, not an error, and dequeues
the pending request. -/
theorem work_mismatch_counterexample :
    st_one_pending.dev.current_work = 0
    ∧ st_one_pending.dev.bio_first = 1
    ∧ (cudaram_work 12 st_one_pending
        (some { id := 7, dir := 0, len := 0, first_page := 0 }) quiet).ret
        = ioctl_ret.returned 0
    ∧ (cudaram_work 12 st_one_pending
        (some { id := 7, dir := 0, len := 0, first_page := 0 }) quiet).st.dev.bio_first = 0
    ∧ (cudaram_work 12 st_one_pending
        (some { id := 7, dir := 0, len := 0, first_page := 0 }) quiet).st.dev.current_work
        = 1 := by
  refine ⟨rfl, rfl, ?_, ?_, ?_⟩ <;> decide

/-- C4, amended.  Let the completed id `w.id` be non-zero and different from the address of
the current request.  If the device has a current request, `cudaram_process_work` returns
`-1`, and so does the exchange, which writes nothing back and leaves the whole state as it
was: no completion, nothing dequeued, the same current request.  If the device has no
current request, the id is ignored: the exchange goes on to the wait exactly as one that
acknowledges nothing. -/
theorem work_mismatch_keeps_state (P : Nat) (s : kstate) (w : cudaram_work_t) (env : uenv)
    (hid : w.id ≠ 0) (hne : w.id ≠ s.dev.current_work) :
    (s.dev.current_work ≠ 0 →
        cudaram_process_work s w env = (-1, s, w)
        ∧ cudaram_work P s (some w) env
            = { ret := ioctl_ret.returned (-1), user_work := none, st := s })
    ∧ (s.dev.current_work = 0 →
        cudaram_work P s (some w) env = cudaram_work_wait P s { w with id := 0 } env) := by
  constructor
  · intro hcur
    have e := process_work_mismatch s w env hcur hid hne
    refine ⟨e, ?_⟩
    simp [cudaram_work, e]
  · intro hcur
    have e := process_work_no_current s w env hcur
    simp [cudaram_work, e]

/-- C4 amended, at a concrete device: the read at address 1 is current, the daemon
acknowledges id 7, and gets `-1` with the state unchanged. -/
theorem work_mismatch_keeps_state_witness :
    (7 : Nat) ≠ 0 ∧ 7 ≠ st_one_current.dev.current_work
    ∧ st_one_current.dev.current_work ≠ 0
    ∧ cudaram_work 12 st_one_current
        (some { id := 7, dir := 0, len := 0, first_page := 0 }) quiet
        = { ret := ioctl_ret.returned (-1), user_work := none, st := st_one_current } :=
  ⟨by decide, by decide, by decide,
    ((work_mismatch_keeps_state 12 st_one_current
      { id := 7, dir := 0, len := 0, first_page := 0 } quiet (by decide) (by decide)).1
      (by decide)).2⟩

/-- The code after the wait completes no request. -/
theorem work_wait_ended (P : Nat) (s : kstate) (w : cudaram_work_t) (env : uenv) :
    (cudaram_work_wait P s w env).st.ended = s.ended := by
  have hg : (cudaram_get_work P s w env).2.1.ended = s.ended := by
    unfold cudaram_get_work
    have hp : (cudaram_pop_bio s).2.ended = s.ended := by
      unfold cudaram_pop_bio
      by_cases h1 : s.dev.bio_first = 0
      · simp [h1]
      · by_cases h2 : s.dev.bio_last = s.dev.bio_first <;> simp [h1, h2]
    by_cases hc : s.dev.current_work = 0
    · simp only [hc, ne_eq, not_true_eq_false, if_false]
      split
      · exact hp
      · split
        · split <;> exact hp
        · exact hp
    · simp only [hc, ne_eq, not_false_eq_true, if_true, if_false]
      split
      · split <;> rfl
      · rfl
  unfold cudaram_work_wait
  split
  · rw [work_out_st, hg]
  · split
    · rw [work_out_st]
    · rfl

/-! ## C8: one outstanding assignment, redelivery -/

/-- C9 (acknowledgement).  Let the device have a current request, let the completed id be
its address, and, when it is a read, let the copy of its payload from the user buffer
succeed.  Then `cudaram_process_work` returns 0, clears `current_work` and completes the
request with success, once; the exchange then runs the wait and the dequeue on that state,
the one in which current is already cleared; and whatever happens there (a new work item,
sleep, interruption), the completions at the end of the exchange are those from before
plus this single one. -/
theorem work_acknowledges_current (P : Nat) (s : kstate) (w : cudaram_work_t) (env : uenv)
    (hcur : s.dev.current_work ≠ 0) (hid : w.id = s.dev.current_work)
    (hcopy : bio_data_dir (s.mem s.dev.current_work) = READ →
      copy_segments env.payload_left (bio_segment_indices (s.mem s.dev.current_work)) = 0) :
    cudaram_process_work s w env
      = (0, { s with dev := { s.dev with current_work := 0 },
                     ended := s.ended ++ [(s.dev.current_work, 0)] },
          { w with id := 0 })
    ∧ cudaram_work P s (some w) env
      = cudaram_work_wait P
          { s with dev := { s.dev with current_work := 0 },
                   ended := s.ended ++ [(s.dev.current_work, 0)] }
          { w with id := 0 } env
    ∧ (cudaram_work P s (some w) env).st.ended = s.ended ++ [(s.dev.current_work, 0)] := by
  have e := process_work_ack s w env hcur hid hcopy
  have e2 : cudaram_work P s (some w) env
      = cudaram_work_wait P
          { s with dev := { s.dev with current_work := 0 },
                   ended := s.ended ++ [(s.dev.current_work, 0)] }
          { w with id := 0 } env := by
    simp only [cudaram_work, e, ne_eq, not_true_eq_false, if_false]
  refine ⟨e, e2, ?_⟩
  rw [e2, work_wait_ended]

/-- C9, the round trip.  The device is activated with capacity 100, a read of two pages
starting at page 10 (sector 80, address 1) is submitted.  The first exchange returns 0 and
the work item with id 1 (not 0), direction read, two pages, first page 10.  The second
exchange passes that work item: the read is completed with success, once, and the current
request is cleared. -/
theorem work_acknowledges_current_witness :
    st_one_pending.dev.capacity = 100 * 2048
    ∧ first_exchange.ret = ioctl_ret.returned 0
    ∧ first_exchange.user_work = some { id := 1, dir := READ, len := 2, first_page := 10 }
    ∧ st_one_current.dev.current_work = 1
    ∧ st_one_current.ended = []
    ∧ bio_data_dir (st_one_current.mem 1) = READ
    ∧ (cudaram_work 12 st_one_current
        (some { id := 1, dir := READ, len := 2, first_page := 10 }) quiet).st.ended = [(1, 0)]
    ∧ (cudaram_work 12 st_one_current
        (some { id := 1, dir := READ, len := 2, first_page := 10 }) quiet).st.dev.current_work
        = 0 :=
  ⟨by decide, by decide, by decide, by decide, by decide, by decide,
    (work_acknowledges_current 12 st_one_current
      { id := 1, dir := READ, len := 2, first_page := 10 } quiet (by decide) (by decide)
      (fun _ => by decide)).2.2,
    by decide⟩

/-! ## C10: cancellation -/

/-- C10 (cancellation).  Let the acknowledgement step of an exchange succeed, let the
pending list be empty, so that the caller has to wait, and let a signal arrive.  Then the
state the call leaves is exactly the state after the acknowledgement step: nothing is
dequeued and nothing more is completed.  If the work structure can be written back, the
call returns `-ERESTARTSYS` and what it writes back is the caller's structure with id 0.
A retry with what was written back acknowledges nothing: `cudaram_process_work` returns 0,
so there is no mismatch, and it changes nothing, so there is no second completion.  The
same is true of a retry with the structure the caller passed in the first place, which is
what user space still holds when the write-back faults.  A sleeper that is woken with the
list still empty and a signal pending likewise returns `-ERESTARTSYS`, writes back its own
structure and changes nothing. -/
theorem work_interrupted_is_cancelled (P : Nat) (s : kstate) (w : cudaram_work_t) (env : uenv)
    (hack : (cudaram_process_work s w env).1 = 0)
    (hempty : s.dev.bio_first = 0)
    (hsig : env.signal = true) :
    (cudaram_work P s (some w) env).st = (cudaram_process_work s w env).2.1
    ∧ (cudaram_work P s (some w) env).st.dev.bio_first = 0
    ∧ (env.writable = true →
        (cudaram_work P s (some w) env).ret = ioctl_ret.returned (- ERESTARTSYS)
        ∧ (cudaram_work P s (some w) env).user_work = some { w with id := 0 })
    ∧ (∀ w1, (cudaram_work P s (some w) env).user_work = some w1 →
        w1.id = 0
        ∧ ∀ env1, cudaram_process_work (cudaram_work P s (some w) env).st w1 env1
            = (0, (cudaram_work P s (some w) env).st, w1))
    ∧ (∀ env1, cudaram_process_work (cudaram_work P s (some w) env).st w env1
        = (0, (cudaram_work P s (some w) env).st, w))
    ∧ (∀ w0 : cudaram_work_t,
        (cudaram_work_wait P s w0 env).st = s
        ∧ (env.writable = true →
            cudaram_work_wait P s w0 env
              = { ret := ioctl_ret.returned (- ERESTARTSYS), user_work := some w0,
                  st := s })) := by
  -- the three ways in which the acknowledgement step returns 0
  have hcases : (cudaram_process_work s w env = (0, s, w)
        ∧ (w.id = 0 ∨ s.dev.current_work = 0))
      ∨ (cudaram_process_work s w env
          = (0, { s with dev := { s.dev with current_work := 0 },
                         ended := s.ended ++ [(s.dev.current_work, 0)] },
              { w with id := 0 })) := by
    by_cases h0 : w.id = 0
    · exact Or.inl ⟨process_work_id_zero s w env h0, Or.inl h0⟩
    · by_cases hc : s.dev.current_work = 0
      · exact Or.inl ⟨process_work_no_current s w env hc, Or.inr hc⟩
      · by_cases hid : w.id = s.dev.current_work
        · by_cases hcp : (bio_data_dir (s.mem s.dev.current_work) = READ →
              copy_segments env.payload_left
                (bio_segment_indices (s.mem s.dev.current_work)) = 0)
          · exact Or.inr (process_work_ack s w env hc hid hcp)
          · have hr : bio_data_dir (s.mem s.dev.current_work) = READ := by
              by_contra hn
              exact hcp (fun h => absurd h hn)
            have hne : copy_segments env.payload_left
                (bio_segment_indices (s.mem s.dev.current_work)) ≠ 0 :=
              fun h => hcp (fun _ => h)
            rw [process_work_copy_fault s w env hc hid hr hne] at hack
            have hack1 : ((copy_segments env.payload_left
                (bio_segment_indices (s.mem s.dev.current_work)) : Nat) : Int) = 0 := hack
            exact absurd (by exact_mod_cast hack1) hne
        · rw [process_work_mismatch s w env hc h0 hid] at hack
          have hack1 : (-1 : Int) = 0 := hack
          exact absurd hack1 (by decide)
  have hfirst : (cudaram_process_work s w env).2.1.dev.bio_first = 0 := by
    rcases hcases with ⟨e, _⟩ | e <;> rw [e] <;> exact hempty
  have hwork : cudaram_work P s (some w) env
      = cudaram_work_out (cudaram_process_work s w env).2.1
          { (cudaram_process_work s w env).2.2 with id := 0 } env (- ERESTARTSYS) := by
    simp only [cudaram_work, hack, ne_eq, not_true_eq_false, if_false, cudaram_work_wait,
      hfirst, hsig, if_true]
  have hw0 : ({ (cudaram_process_work s w env).2.2 with id := 0 } : cudaram_work_t)
      = { w with id := 0 } := by
    rcases hcases with ⟨e, _⟩ | e <;> rw [e]
  have hst : (cudaram_work P s (some w) env).st = (cudaram_process_work s w env).2.1 := by
    rw [hwork, work_out_st]
  have hsleeper : ∀ w0 : cudaram_work_t,
      cudaram_work_wait P s w0 env = cudaram_work_out s w0 env (- ERESTARTSYS) := by
    intro w0
    simp only [cudaram_work_wait, hempty, ne_eq, not_true_eq_false, if_false, hsig, if_true]
  refine ⟨hst, by rw [hst]; exact hfirst, ?_, ?_, ?_, fun w0 =>
    ⟨by rw [hsleeper, work_out_st], fun hwr => by rw [hsleeper, work_out_writable _ _ _ _ hwr]⟩⟩
  · intro hwr
    rw [hwork, work_out_writable _ _ _ _ hwr, hw0]
    exact ⟨rfl, rfl⟩
  · intro w1 h1
    rw [hwork] at h1
    have hw1 : w1 = { w with id := 0 } := by
      rw [← hw0]
      exact work_out_user_work _ _ _ _ _ h1
    subst hw1
    exact ⟨rfl, fun env1 => process_work_id_zero _ _ env1 rfl⟩
  · intro env1
    rw [hst]
    rcases hcases with ⟨e, h | h⟩ | e
    · rw [e]
      exact process_work_id_zero s w env1 h
    · rw [e]
      exact process_work_no_current s w env1 h
    · rw [e]
      exact process_work_no_current _ w env1 rfl

/-- C10 at a concrete device: the read at address 1 is current, nothing is pending; the
daemon acknowledges the read and a signal interrupts the wait.  The call returns
`-ERESTARTSYS`, writes back id 0, the read is completed once and nothing is current. -/
theorem work_interrupted_is_cancelled_witness :
    (cudaram_process_work st_one_current
        { id := 1, dir := READ, len := 2, first_page := 10 } interrupted).1 = 0
    ∧ st_one_current.dev.bio_first = 0
    ∧ interrupted.signal = true
    ∧ (cudaram_work 12 st_one_current
        (some { id := 1, dir := READ, len := 2, first_page := 10 }) interrupted).ret
        = ioctl_ret.returned (- ERESTARTSYS)
    ∧ (cudaram_work 12 st_one_current
        (some { id := 1, dir := READ, len := 2, first_page := 10 }) interrupted).user_work
        = some { id := 0, dir := READ, len := 2, first_page := 10 }
    ∧ observe (cudaram_work 12 st_one_current
        (some { id := 1, dir := READ, len := 2, first_page := 10 }) interrupted).st
        = ({ st_one_current.dev with current_work := 0 }, [(1, 0)]) :=
  have h := work_interrupted_is_cancelled 12 st_one_current
    { id := 1, dir := READ, len := 2, first_page := 10 } interrupted (by decide) (by decide) rfl
  ⟨by decide, by decide, rfl, (h.2.2.1 rfl).1, (h.2.2.1 rfl).2, by decide⟩

/-! ## C1: FIFO service order -/

theorem copy_segments_zero (left : Nat → Nat) (h : ∀ i, left i = 0) :
    ∀ l : List Nat, copy_segments left l = 0
  | [] => rfl
  | i :: rest => by
    simp only [copy_segments, h i, ne_eq, not_true_eq_false, if_false]
    exact copy_segments_zero left h rest

/-- Submitting fresh requests to a Ready device appends them to the pending list, in
order, and completes nothing. -/
theorem submit_all_ready :
    ∀ (l : List Nat) (s : kstate) (l0 : List Nat), is_queue s l0 →
      s.dev.state = CUDARAM_STATE_READY → (l0 ++ l).Nodup → (∀ b ∈ l, b ≠ 0) →
      is_queue (submit_all s l) (l0 ++ l)
      ∧ (submit_all s l).dev.state = CUDARAM_STATE_READY
      ∧ (submit_all s l).dev.current_work = s.dev.current_work
      ∧ (submit_all s l).ended = s.ended
  | [], s, l0, hq, hr, _, _ => by
    rw [List.append_nil]
    exact ⟨hq, hr, rfl, rfl⟩
  | b :: l, s, l0, hq, hr, hnd, hne => by
    have hb : b ≠ 0 := hne b (List.mem_cons_self b l)
    have hnot : b ∉ l0 := by
      intro hmem
      have := (List.nodup_append.mp hnd).2.2
      exact this hmem (List.mem_cons_self b l)
    have e : cudaram_make_request s b = (0, cudaram_push_bio s b) := by
      simp [cudaram_make_request, hr]
    have hq1 := push_bio_is_queue s l0 b hq hb hnot
    have hst := push_bio_state s b
    have hnd1 : ((l0 ++ [b]) ++ l).Nodup := by
      rw [List.append_assoc]
      exact hnd
    have ih := submit_all_ready l (cudaram_push_bio s b) (l0 ++ [b]) hq1
      (by rw [hst.1]; exact hr) hnd1 (fun c hc => hne c (List.mem_cons_of_mem b hc))
    have e2 : submit_all s (b :: l) = submit_all (cudaram_push_bio s b) l := by
      simp only [submit_all, e]
    rw [e2]
    have e3 : l0 ++ b :: l = (l0 ++ [b]) ++ l := by simp
    rw [e3]
    exact ⟨ih.1, ih.2.1, by rw [ih.2.2.1, hst.2.1], by rw [ih.2.2.2, push_bio_ended]⟩

/-- Form of `get_work_pop` that names the new state only by its properties. -/
theorem get_work_pop_queue (P : Nat) (s : kstate) (w : cudaram_work_t) (env : uenv) (b : Nat)
    (l : List Nat) (hc : s.dev.current_work = 0) (hq : is_queue s (b :: l)) :
    ∃ s1, (cudaram_get_work P s w env).2 = (s1, work_of P s.mem b)
      ∧ is_queue s1 l ∧ s1.dev.current_work = b ∧ s1.mem = s.mem ∧ s1.ended = s.ended
      ∧ s1.dev.state = s.dev.state :=
  ⟨_, get_work_pop P s w env b l hc hq, (pop_bio_cons s b l hq).2, rfl, rfl, rfl, rfl⟩

/-- The code after the wait, run without a current request on a non-empty queue: the head
of the queue becomes the current request and is handed out. -/
theorem work_wait_pop (P : Nat) (s : kstate) (w : cudaram_work_t) (env : uenv) (b : Nat)
    (l : List Nat) (hq : is_queue s (b :: l)) (hc : s.dev.current_work = 0)
    (hwr : env.writable = true) :
    ∃ s1, cudaram_work_wait P s w env
        = { ret := ioctl_ret.returned 0, user_work := some (work_of P s.mem b), st := s1 }
      ∧ is_queue s1 l ∧ s1.dev.current_work = b ∧ s1.mem = s.mem ∧ s1.ended = s.ended := by
  have hb : b ≠ 0 := hq.1.2.1
  have hfirst : s.dev.bio_first = b := hq.1.1
  obtain ⟨s1, hg, h1, h2, h3, h4, _⟩ := get_work_pop_queue P s w env b l hc hq
  refine ⟨s1, ?_, h1, h2, h3, h4⟩
  simp only [cudaram_work_wait, hfirst, hb, ne_eq, not_false_eq_true, if_true,
    work_out_writable _ _ _ _ hwr, hg]

/-- One round of the exchange on a non-empty queue: the work item handed out is the head
of the queue, which becomes the current request, and the rest of the queue stays. -/
theorem work_round (P : Nat) (s : kstate) (w : cudaram_work_t) (env : uenv) (b : Nat)
    (l : List Nat) (hq : is_queue s (b :: l))
    (hw : s.dev.current_work = 0 ∨ w.id = s.dev.current_work)
    (hwr : env.writable = true) (hcp : ∀ i, env.payload_left i = 0) :
    ∃ s1, cudaram_work P s (some w) env
        = { ret := ioctl_ret.returned 0, user_work := some (work_of P s.mem b), st := s1 }
      ∧ is_queue s1 l ∧ s1.dev.current_work = b ∧ s1.mem = s.mem := by
  by_cases hc : s.dev.current_work = 0
  · have e := process_work_no_current s w env hc
    have e2 : cudaram_work P s (some w) env = cudaram_work_wait P s { w with id := 0 } env := by
      simp only [cudaram_work, e, ne_eq, not_true_eq_false, if_false]
    obtain ⟨s1, h0, h1, h2, h3, _⟩ := work_wait_pop P s { w with id := 0 } env b l hq hc hwr
    exact ⟨s1, by rw [e2, h0], h1, h2, h3⟩
  · have hid : w.id = s.dev.current_work := hw.resolve_left hc
    have e := process_work_ack s w env hc hid
      (fun _ => copy_segments_zero env.payload_left hcp _)
    have e2 : cudaram_work P s (some w) env
        = cudaram_work_wait P (cudaram_process_work s w env).2.1 { w with id := 0 } env := by
      simp only [cudaram_work, e, ne_eq, not_true_eq_false, if_false]
    have hmem : (cudaram_process_work s w env).2.1.mem = s.mem := by rw [e]
    have hq1 : is_queue (cudaram_process_work s w env).2.1 (b :: l) := by rw [e]; exact hq
    have hc1 : (cudaram_process_work s w env).2.1.dev.current_work = 0 := by rw [e]
    obtain ⟨s1, h0, h1, h2, h3, _⟩ := work_wait_pop P _ { w with id := 0 } env b l hq1 hc1 hwr
    refine ⟨s1, ?_, h1, h2, by rw [h3, hmem]⟩
    rw [e2, h0, hmem]

/-- The daemon's loop drains a queue in order: with one round per pending request, the
ids of the work items received are the pending requests, oldest first, and the queue is
empty afterwards. -/
theorem work_loop_drains (P : Nat) :
    ∀ (l : List Nat) (s : kstate) (w : cudaram_work_t) (envs : List uenv), is_queue s l →
      (s.dev.current_work = 0 ∨ w.id = s.dev.current_work) → envs.length = l.length →
      (∀ e ∈ envs, e.writable = true ∧ ∀ i, e.payload_left i = 0) →
      (work_loop P s w envs).1.map (fun x => x.id) = l
      ∧ is_queue (work_loop P s w envs).2 []
  | [], s, w, envs, hq, _, hlen, _ => by
    have he : envs = [] := List.length_eq_zero.mp hlen
    subst he
    exact ⟨rfl, hq⟩
  | b :: l, s, w, [], _, _, hlen, _ => by simp at hlen
  | b :: l, s, w, env :: envs, hq, hw, hlen, henv => by
    obtain ⟨hwr, hcp⟩ := henv env (List.mem_cons_self env envs)
    obtain ⟨s1, e, hq1, hc1, _⟩ := work_round P s w env b l hq hw hwr hcp
    have ih := work_loop_drains P l s1 (work_of P s.mem b) envs hq1 (Or.inr hc1.symm)
      (by simpa using hlen) (fun x hx => henv x (List.mem_cons_of_mem env hx))
    have e2 : work_loop P s w (env :: envs)
        = (work_of P s.mem b :: (work_loop P s1 (work_of P s.mem b) envs).1,
            (work_loop P s1 (work_of P s.mem b) envs).2) := by
      simp only [work_loop, e]
    rw [e2]
    refine ⟨?_, ih.2⟩
    simp only [List.map_cons, ih.1]
    rfl

/-- C1 (FIFO service order).  Take a Ready device with no current request and an empty
pending list, and submit to it the pairwise distinct requests `l` (non-`NULL` bios).  Let
the daemon then make one exchange per request, each passing the work structure the
previous one wrote back (the first passes any structure), with a writable work structure
and no fault on the read payloads.  Every one of these exchanges returns 0, the ids of the
work items they return are the requests of `l` in the order of submission, and the pending
list is empty afterwards. -/
theorem fifo_service_order (P : Nat) (s : kstate) (l : List Nat) (w0 : cudaram_work_t)
    (envs : List uenv) (hready : s.dev.state = CUDARAM_STATE_READY)
    (hcur : s.dev.current_work = 0) (hq : is_queue s []) (hnd : l.Nodup)
    (hne : ∀ b ∈ l, b ≠ 0) (hlen : envs.length = l.length)
    (henv : ∀ e ∈ envs, e.writable = true ∧ ∀ i, e.payload_left i = 0) :
    (work_loop P (submit_all s l) w0 envs).1.map (fun x => x.id) = l
    ∧ (work_loop P (submit_all s l) w0 envs).1.length = l.length
    ∧ is_queue (work_loop P (submit_all s l) w0 envs).2 [] := by
  have hs := submit_all_ready l s [] hq hready (by simpa using hnd) hne
  rw [List.nil_append] at hs
  have hd := work_loop_drains P l (submit_all s l) w0 envs hs.1
    (Or.inl (by rw [hs.2.2.1]; exact hcur)) hlen henv
  refine ⟨hd.1, ?_, hd.2⟩
  have := congrArg List.length hd.1
  simpa using this

/-- C1 at a concrete device: the requests at addresses 1, 2, 3 are submitted to the Ready
device and three exchanges return them in that order, with the descriptions of the
requests; nothing is pending afterwards. -/
theorem fifo_service_order_witness :
    st_ready.dev.state = CUDARAM_STATE_READY ∧ st_ready.dev.current_work = 0
    ∧ is_queue st_ready []
    ∧ (work_loop 12 (submit_all st_ready [1, 2, 3]) work_none [quiet, quiet, quiet]).1.map
        (fun x => x.id) = [1, 2, 3]
    ∧ is_queue
        (work_loop 12 (submit_all st_ready [1, 2, 3]) work_none [quiet, quiet, quiet]).2 []
    ∧ (work_loop 12 (submit_all st_ready [1, 2, 3]) work_none [quiet, quiet, quiet]).1
        = [{ id := 1, dir := READ, len := 2, first_page := 10 },
           { id := 2, dir := WRITE, len := 1, first_page := 0 },
           { id := 3, dir := READ, len := 1, first_page := 1 }] :=
  have h := fifo_service_order 12 st_ready [1, 2, 3] work_none [quiet, quiet, quiet] rfl rfl
    is_queue_st_ready (by decide) (by decide) rfl
    (fun e he => by
      simp only [List.mem_cons, List.mem_singleton, List.not_mem_nil, or_false, or_self] at he
      subst he
      exact ⟨rfl, fun _ => rfl⟩)
  ⟨rfl, rfl, is_queue_st_ready, h.1, h.2.2, by decide⟩

/-! ## C2: deactivate -/

/-- What `cudaram_deactivate` does on every state whose pending list holds `l`, with fuel
for `l.length` iterations: it terminates, the state is Free, the pending list is empty
(`bio_first` and `bio_last` are `NULL`), the pending requests are failed with `-EIO` in
the order of the list, and `current_work` is what it was. -/
theorem deactivate_flushes_pending (fuel : Nat) (s : kstate) (l : List Nat) (bdev_err : Bool)
    (hq : is_queue s l) (hfuel : l.length ≤ fuel) :
    ∃ s1, cudaram_deactivate fuel s bdev_err = some s1
      ∧ s1.dev.state = CUDARAM_STATE_FREE
      ∧ s1.dev.bio_first = 0 ∧ s1.dev.bio_last = 0
      ∧ s1.ended = s.ended ++ l.map (fun b => (b, - EIO_code))
      ∧ s1.dev.current_work = s.dev.current_work := by
  obtain ⟨s2, h1, h2, h3, _, _⟩ := flush_bio_chain l fuel
    { s with dev := { s.dev with
        state := CUDARAM_STATE_FREE, bio_first := 0, bio_last := 0 } }
    s.dev.bio_first hq.1 hq.2.1 hfuel
  cases bdev_err with
  | true =>
    refine ⟨s2, ?_, ?_, ?_, ?_, h3, ?_⟩
    · simp [cudaram_deactivate, h1]
    all_goals rw [h2]
  | false =>
    refine ⟨{ s2 with dev := { s2.dev with capacity := 0 } }, ?_, ?_, ?_, ?_, h3, ?_⟩
    · simp [cudaram_deactivate, h1]
    · show s2.dev.state = _
      rw [h2]
    · show s2.dev.bio_first = _
      rw [h2]
    · show s2.dev.bio_last = _
      rw [h2]
    · show s2.dev.current_work = _
      rw [h2]

/-- C2, the code at a failing input.  The device is Ready, the read at address 1 is the
current request and the requests at addresses 2 and 3 are pending: three requests in all.
`cudaram_deactivate` fails the two pending requests, in FIFO order, and leaves the device
Free with an empty pending list; but the current request is not completed, and
`current_work` still points to it. -/
theorem deactivate_leaves_current :
    st_busy.dev.state = CUDARAM_STATE_READY
    ∧ st_busy.dev.current_work = 1
    ∧ is_queue st_busy [2, 3]
    ∧ st_busy.ended = []
    ∧ (cudaram_deactivate 2 st_busy false).map observe
        = some ({ state := CUDARAM_STATE_FREE, user_buffer := 4096, bio_first := 0,
                  bio_last := 0, current_work := 1, capacity := 0, max_hw_sectors := 2048 },
                [(2, - EIO_code), (3, - EIO_code)]) := by
  refine ⟨by decide, by decide, by decide, by decide, by decide⟩

/-! ## C3: exactly-once completion -/

/-- C3, the code at a failing input.  On a freshly allocated device: take, activate with
capacity 100, submit the read at address 1, one exchange (which hands the read out), then
deactivate.  The sequence ends with deactivate, the read was submitted while the device
was Ready, and its completion has not been invoked: no completion at all was signalled,
and the read is still the current request of the now Free device. -/
theorem deactivate_loses_current_request :
    (run 12 1 st_free
      [op.take,
       op.activate (some { capacity := 100, buffer := 4096, buffer_size := 1 }),
       op.submit 1,
       op.exchange (some work_none) quiet,
       op.deactivate false]).map observe
      = some ({ state := CUDARAM_STATE_FREE, user_buffer := 4096, bio_first := 0,
                bio_last := 0, current_work := 1, capacity := 0, max_hw_sectors := 2048 },
              [])
    ∧ submitted
      [op.take,
       op.activate (some { capacity := 100, buffer := 4096, buffer_size := 1 }),
       op.submit 1,
       op.exchange (some work_none) quiet,
       op.deactivate false] = [1]
    ∧ (cudaram_work 12 st_one_pending (some work_none) quiet).user_work
        = some { id := 1, dir := READ, len := 2, first_page := 10 } := by
  refine ⟨by decide, by decide, by decide⟩

theorem take_state_only (s : kstate) :
    (cudaram_take s).2.mem = s.mem
    ∧ (cudaram_take s).2.dev.bio_first = s.dev.bio_first
    ∧ (cudaram_take s).2.dev.bio_last = s.dev.bio_last
    ∧ (cudaram_take s).2.dev.current_work = s.dev.current_work
    ∧ (cudaram_take s).2.ended = s.ended := by
  by_cases h : s.dev.state = CUDARAM_STATE_FREE <;> simp [cudaram_take, h]

theorem activate_state_only (s : kstate) (u : Option cudaram_params) :
    (cudaram_activate s u).2.mem = s.mem
    ∧ (cudaram_activate s u).2.dev.bio_first = s.dev.bio_first
    ∧ (cudaram_activate s u).2.dev.bio_last = s.dev.bio_last
    ∧ (cudaram_activate s u).2.dev.current_work = s.dev.current_work
    ∧ (cudaram_activate s u).2.ended = s.ended := by
  by_cases h : s.dev.state = CUDARAM_STATE_TAKEN
  · cases u <;> simp [cudaram_activate, h]
  · simp [cudaram_activate, h]

/-! ## Every request is in one place: an invariant of all operation sequences -/

theorem accounted_congr {s s1 : kstate} {S : List Nat} (hm : s1.mem = s.mem)
    (hf : s1.dev.bio_first = s.dev.bio_first) (hl : s1.dev.bio_last = s.dev.bio_last)
    (hc : s1.dev.current_work = s.dev.current_work) (he : s1.ended = s.ended)
    (h : accounted s S) : accounted s1 S := by
  obtain ⟨l, hq, hp⟩ := h
  refine ⟨l, ?_, ?_⟩
  · unfold is_queue
    rw [hm, hf, hl]
    exact hq
  · unfold current_list ended_bios
    rw [hc, he]
    exact hp

theorem accounted_fresh (s : kstate) (hd : s.dev = cudaram_alloc) (he : s.ended = []) :
    accounted s [] := by
  refine ⟨[], ?_, ?_⟩
  · unfold is_queue
    rw [hd]
    exact ⟨rfl, List.nodup_nil, rfl⟩
  · unfold current_list ended_bios
    rw [hd, he]
    exact List.Perm.refl _

theorem accounted_take (s : kstate) (S : List Nat) (h : accounted s S) :
    accounted (cudaram_take s).2 S := by
  have e := (take_state_only s)
  exact accounted_congr e.1 e.2.1 e.2.2.1 e.2.2.2.1 e.2.2.2.2 h

theorem accounted_activate (s : kstate) (S : List Nat) (u : Option cudaram_params)
    (h : accounted s S) : accounted (cudaram_activate s u).2 S := by
  have e := activate_state_only s u
  exact accounted_congr e.1 e.2.1 e.2.2.1 e.2.2.2.1 e.2.2.2.2 h

theorem accounted_submit (s : kstate) (S : List Nat) (b : Nat) (hb : b ≠ 0) (hS : b ∉ S)
    (h : accounted s S) : accounted (cudaram_make_request s b).2 (S ++ [b]) := by
  obtain ⟨l, hq, hp⟩ := h
  have hbl : b ∉ l := fun hm => hS (hp.subset (by simp [hm]))
  by_cases hr : s.dev.state = CUDARAM_STATE_READY
  · have e : cudaram_make_request s b = (0, cudaram_push_bio s b) := by
      simp [cudaram_make_request, hr]
    rw [e]
    refine ⟨l ++ [b], push_bio_is_queue s l b hq hb hbl, ?_⟩
    have hc : current_list (cudaram_push_bio s b) = current_list s := by
      unfold current_list
      rw [(push_bio_state s b).2.1]
    have he : ended_bios (cudaram_push_bio s b) = ended_bios s := by
      unfold ended_bios
      rw [push_bio_ended]
    rw [hc, he]
    have h1 : List.Perm (l ++ [b] ++ current_list s ++ ended_bios s)
        ((l ++ current_list s ++ ended_bios s) ++ [b]) := by
      simp only [List.append_assoc]
      refine List.Perm.append_left l ?_
      rw [← List.append_assoc (current_list s)]
      exact List.perm_append_comm
    exact h1.trans (List.Perm.append_right [b] hp)
  · have e : cudaram_make_request s b
        = (0, { s with ended := s.ended ++ [(b, - EIO_code)] }) := by
      simp [cudaram_make_request, hr, bio_io_error, bio_endio]
    rw [e]
    refine ⟨l, hq, ?_⟩
    have he : ended_bios { s with ended := s.ended ++ [(b, - EIO_code)] }
        = ended_bios s ++ [b] := by
      simp [ended_bios]
    have hc : current_list { s with ended := s.ended ++ [(b, - EIO_code)] }
        = current_list s := rfl
    rw [he, hc, ← List.append_assoc]
    exact List.Perm.append_right [b] hp

/-- Whenever the flush loop terminates on a well-formed list, it has failed the bios of
the list in order and has not touched the device record. -/
theorem flush_bio_some :
    ∀ (l : List Nat) (fuel : Nat) (s : kstate) (p : Nat) (s1 : kstate), chain s.mem p l →
      l.Nodup → cudaram_flush_bio fuel s p = some s1 →
      s1.dev = s.dev ∧ s1.ended = s.ended ++ l.map (fun b => (b, - EIO_code))
  | [], fuel, s, p, s1, hc, _, h => by
    have hp : p = 0 := hc
    subst hp
    have e : cudaram_flush_bio fuel s 0 = some s := by
      cases fuel <;> simp [cudaram_flush_bio]
    rw [e] at h
    cases h
    exact ⟨rfl, by simp⟩
  | b :: l, 0, s, p, s1, hc, _, h => by
    obtain ⟨h1, h2, _⟩ := hc
    subst h1
    simp [cudaram_flush_bio, h2] at h
  | b :: l, fuel + 1, s, p, s1, hc, hnd, h => by
    obtain ⟨h1, h2, h3⟩ := hc
    subst h1
    have hnd1 : l.Nodup := (List.nodup_cons.mp hnd).2
    have hbl : p ∉ l := (List.nodup_cons.mp hnd).1
    have hc1 : chain (bio_io_error (set_bi_next s p 0) p).mem (s.mem p).bi_next l := by
      refine chain_congr l _ ?_ h3
      intro c hc
      have hcp : c ≠ p := fun e => hbl (e ▸ hc)
      simp [bio_io_error, bio_endio, set_bi_next, hcp]
    simp only [cudaram_flush_bio, h2, ne_eq, not_false_eq_true, if_true] at h
    obtain ⟨e1, e2⟩ := flush_bio_some l fuel _ _ s1 hc1 hnd1 h
    refine ⟨by rw [e1]; rfl, ?_⟩
    rw [e2]
    simp [bio_io_error, bio_endio, set_bi_next]

/-- The state `cudaram_process_work` leaves is the state it was given, or that state with
the current request completed and cleared. -/
theorem process_work_state (s : kstate) (w : cudaram_work_t) (env : uenv) :
    (cudaram_process_work s w env).2.1 = s
    ∨ (s.dev.current_work ≠ 0
        ∧ (cudaram_process_work s w env).2.1
          = { s with dev := { s.dev with current_work := 0 },
                     ended := s.ended ++ [(s.dev.current_work, 0)] }) := by
  by_cases h0 : w.id = 0
  · exact Or.inl (by rw [process_work_id_zero s w env h0])
  · by_cases hc : s.dev.current_work = 0
    · exact Or.inl (by rw [process_work_no_current s w env hc])
    · by_cases hid : w.id = s.dev.current_work
      · by_cases hcp : (bio_data_dir (s.mem s.dev.current_work) = READ →
            copy_segments env.payload_left
              (bio_segment_indices (s.mem s.dev.current_work)) = 0)
        · exact Or.inr ⟨hc, by rw [process_work_ack s w env hc hid hcp]⟩
        · have hr : bio_data_dir (s.mem s.dev.current_work) = READ := by
            by_contra hn
            exact hcp (fun h => absurd h hn)
          have hne : copy_segments env.payload_left
              (bio_segment_indices (s.mem s.dev.current_work)) ≠ 0 :=
            fun h => hcp (fun _ => h)
          exact Or.inl (by rw [process_work_copy_fault s w env hc hid hr hne])
      · exact Or.inl (by rw [process_work_mismatch s w env hc h0 hid])

theorem accounted_process_work (s : kstate) (S : List Nat) (w : cudaram_work_t) (env : uenv)
    (h : accounted s S) : accounted (cudaram_process_work s w env).2.1 S := by
  rcases process_work_state s w env with e | ⟨hc, e⟩
  · rw [e]
    exact h
  · rw [e]
    obtain ⟨l, hq, hp⟩ := h
    refine ⟨l, hq, ?_⟩
    have h1 : current_list s = [s.dev.current_work] := by simp [current_list, hc]
    rw [h1] at hp
    refine List.Perm.trans ?_ hp
    simp only [current_list, ended_bios, List.map_append, List.map_cons, List.map_nil,
      if_true, List.append_nil, List.append_assoc]
    refine List.Perm.append_left l ?_
    exact List.perm_append_comm

/-- The state the code after the wait leaves. -/
theorem work_wait_st (P : Nat) (s : kstate) (w : cudaram_work_t) (env : uenv) :
    (cudaram_work_wait P s w env).st
      = if s.dev.bio_first ≠ 0 then (cudaram_get_work P s w env).2.1 else s := by
  unfold cudaram_work_wait
  by_cases hf : s.dev.bio_first = 0
  · simp only [hf, ne_eq, not_true_eq_false, if_false]
    split
    · exact work_out_st _ _ _ _
    · rfl
  · simp only [hf, ne_eq, not_false_eq_true, if_true]
    exact work_out_st _ _ _ _

theorem accounted_work_wait (P : Nat) (s : kstate) (S : List Nat) (w : cudaram_work_t)
    (env : uenv) (h : accounted s S) : accounted (cudaram_work_wait P s w env).st S := by
  rw [work_wait_st]
  by_cases hf : s.dev.bio_first = 0
  · simp only [hf, ne_eq, not_true_eq_false, if_false]
    exact h
  · simp only [hf, ne_eq, not_false_eq_true, if_true]
    by_cases hc : s.dev.current_work = 0
    · obtain ⟨l, hq, hp⟩ := h
      cases l with
      | nil => exact absurd hq.1 hf
      | cons b l1 =>
        obtain ⟨s1, e, h1, h2, _, h4, _⟩ := get_work_pop_queue P s w env b l1 hc hq
        rw [e]
        refine ⟨l1, h1, List.Perm.trans ?_ hp⟩
        have hb : b ≠ 0 := hq.1.2.1
        simp only [current_list, ended_bios, h2, h4, hb, hc, if_true, if_false,
          List.append_nil, List.append_assoc, List.cons_append]
        exact (List.perm_middle).trans (List.Perm.refl _)
    · rw [get_work_current P s w env hc]
      exact h

theorem accounted_work (P : Nat) (s : kstate) (S : List Nat) (uw : Option cudaram_work_t)
    (env : uenv) (h : accounted s S) : accounted (cudaram_work P s uw env).st S := by
  cases uw with
  | none => exact h
  | some w =>
    have hp := accounted_process_work s S w env h
    unfold cudaram_work
    by_cases he : (cudaram_process_work s w env).1 = 0
    · simp only [he, ne_eq, not_true_eq_false, if_false]
      exact accounted_work_wait P _ S _ env hp
    · simp only [he, ne_eq, not_false_eq_true, if_true]
      exact hp

theorem map_fst_pair (x : Int) : ∀ l : List Nat, (l.map (fun b => (b, x))).map Prod.fst = l
  | [] => rfl
  | b :: l => by
    simp only [List.map_cons]
    rw [map_fst_pair x l]

theorem flush_detached (fuel : Nat) (s s0 s2 : kstate) (l : List Nat) (hq : is_queue s l)
    (hfl : cudaram_flush_bio fuel s0 s.dev.bio_first = some s2) (hm : s0.mem = s.mem) :
    s2.dev = s0.dev ∧ s2.ended = s0.ended ++ l.map (fun b => (b, - EIO_code)) :=
  flush_bio_some l fuel s0 _ s2 (hm ▸ hq.1) hq.2.1 hfl

/-- Whenever `cudaram_deactivate` terminates on a state whose pending list holds `l`: the
state is Free, the list is empty, the requests of `l` have been failed in order, and
`current_work` is what it was. -/
theorem deactivate_some (fuel : Nat) (s s1 : kstate) (l : List Nat) (bdev_err : Bool)
    (hq : is_queue s l) (hd : cudaram_deactivate fuel s bdev_err = some s1) :
    s1.dev.state = CUDARAM_STATE_FREE ∧ s1.dev.bio_first = 0 ∧ s1.dev.bio_last = 0
    ∧ s1.dev.current_work = s.dev.current_work
    ∧ s1.ended = s.ended ++ l.map (fun b => (b, - EIO_code)) := by
  unfold cudaram_deactivate at hd
  simp only at hd
  split at hd
  · cases hd
  · rename_i s2 hfl
    obtain ⟨e1, e2⟩ := flush_detached fuel s _ s2 l hq hfl rfl
    cases bdev_err with
    | true =>
      simp only [if_true, Option.some.injEq] at hd
      subst hd
      exact ⟨by rw [e1], by rw [e1], by rw [e1], by rw [e1], e2⟩
    | false =>
      simp only [Bool.false_eq_true, if_false, Option.some.injEq] at hd
      subst hd
      refine ⟨?_, ?_, ?_, ?_, e2⟩
      · show s2.dev.state = _
        rw [e1]
      · show s2.dev.bio_first = _
        rw [e1]
      · show s2.dev.bio_last = _
        rw [e1]
      · show s2.dev.current_work = _
        rw [e1]

theorem accounted_deactivate (fuel : Nat) (s s1 : kstate) (S : List Nat) (bdev_err : Bool)
    (h : accounted s S) (hd : cudaram_deactivate fuel s bdev_err = some s1) :
    accounted s1 S := by
  obtain ⟨l, hq, hp⟩ := h
  obtain ⟨_, hf, hl, hc, he⟩ := deactivate_some fuel s s1 l bdev_err hq hd
  refine ⟨[], ⟨hf, List.nodup_nil, hl⟩, List.Perm.trans ?_ hp⟩
  have h1 : current_list s1 = current_list s := by
    unfold current_list
    rw [hc]
  have h2 : ended_bios s1 = ended_bios s ++ l := by
    unfold ended_bios
    rw [he, List.map_append, map_fst_pair]
  rw [h1, h2, List.nil_append]
  exact (List.perm_append_comm).trans (by
    rw [List.append_assoc]
    exact List.perm_append_comm)

theorem accounted_step (P fuel : Nat) (s s1 : kstate) (S : List Nat) (o : op)
    (h : accounted s S) (hfresh : ∀ b ∈ submitted [o], b ≠ 0 ∧ b ∉ S)
    (hs : step P fuel s o = some s1) : accounted s1 (S ++ submitted [o]) := by
  cases o with
  | take =>
    simp only [step, Option.some.injEq] at hs
    subst hs
    simpa [submitted] using accounted_take s S h
  | activate u =>
    simp only [step, Option.some.injEq] at hs
    subst hs
    simpa [submitted] using accounted_activate s S u h
  | submit b =>
    simp only [step, Option.some.injEq] at hs
    subst hs
    have hb := hfresh b (by simp [submitted])
    exact accounted_submit s S b hb.1 hb.2 h
  | exchange uw env =>
    simp only [step, Option.some.injEq] at hs
    subst hs
    simpa [submitted] using accounted_work P s S uw env h
  | wake w env =>
    simp only [step, Option.some.injEq] at hs
    subst hs
    simpa [submitted] using accounted_work_wait P s S w env h
  | deactivate e =>
    simp only [step] at hs
    simpa [submitted] using accounted_deactivate fuel s s1 S e h hs

theorem submitted_cons (o : op) (os : List op) :
    submitted (o :: os) = submitted [o] ++ submitted os := by
  cases o <;> simp [submitted]

theorem accounted_run (P fuel : Nat) :
    ∀ (os : List op) (s s1 : kstate) (S : List Nat), accounted s S →
      (S ++ submitted os).Nodup → (∀ b ∈ submitted os, b ≠ 0) →
      run P fuel s os = some s1 → accounted s1 (S ++ submitted os)
  | [], s, s1, S, h, _, _, hr => by
    simp only [run, Option.some.injEq] at hr
    subst hr
    simpa [submitted] using h
  | o :: os, s, s1, S, h, hnd, hne, hr => by
    rw [submitted_cons] at hnd hne ⊢
    simp only [run] at hr
    cases hst : step P fuel s o with
    | none => simp [hst] at hr
    | some s2 =>
      simp only [hst] at hr
      have hfresh : ∀ b ∈ submitted [o], b ≠ 0 ∧ b ∉ S := by
        intro b hb
        refine ⟨hne b (List.mem_append_left _ hb), fun hS => ?_⟩
        have hdis := (List.nodup_append.mp hnd).2.2
        exact hdis hS (List.mem_append_left _ hb)
      have h2 := accounted_step P fuel s s2 S o h hfresh hst
      rw [← List.append_assoc] at hnd ⊢
      exact accounted_run P fuel os s2 s1 (S ++ submitted [o]) h2 hnd
        (fun b hb => hne b (List.mem_append_right _ hb)) hr

/-- What holds after every sequence of operations on a freshly allocated device, when the
requests submitted are pairwise distinct non-`NULL` bios: no request has been completed
twice, only submitted requests have been completed, and every submitted request is
completed, or is the current request, or is pending.  A prefix of a sequence is a
sequence, so this holds at every point of a sequence. -/
theorem completions_at_most_once (P fuel : Nat) (s0 s1 : kstate) (os : List op)
    (hd : s0.dev = cudaram_alloc) (he : s0.ended = []) (hnd : (submitted os).Nodup)
    (hne : ∀ b ∈ submitted os, b ≠ 0) (hr : run P fuel s0 os = some s1) :
    (ended_bios s1).Nodup
    ∧ (∀ b ∈ ended_bios s1, b ∈ submitted os)
    ∧ (∀ b ∈ submitted os,
        b ∈ ended_bios s1 ∨ b = s1.dev.current_work ∨ ∃ l, is_queue s1 l ∧ b ∈ l) := by
  have h := accounted_run P fuel os s0 s1 [] (accounted_fresh s0 hd he)
    (by simpa using hnd) hne hr
  rw [List.nil_append] at h
  obtain ⟨l, hq, hp⟩ := h
  have hnd1 : (l ++ current_list s1 ++ ended_bios s1).Nodup := hp.nodup_iff.mpr hnd
  refine ⟨(List.nodup_append.mp hnd1).2.1, ?_, ?_⟩
  · intro b hb
    exact hp.subset (List.mem_append_right _ hb)
  · intro b hb
    have hm : b ∈ l ++ current_list s1 ++ ended_bios s1 := hp.symm.subset hb
    rcases List.mem_append.mp hm with h1 | h1
    · rcases List.mem_append.mp h1 with h2 | h2
      · exact Or.inr (Or.inr ⟨l, hq, h2⟩)
      · right
        left
        unfold current_list at h2
        split at h2
        · cases h2
        · exact List.mem_singleton.mp h2
    · exact Or.inl h1

/-! ## C11: the state/queue invariant -/

/-- The flush loop never writes to the device record. -/
theorem flush_bio_dev :
    ∀ (fuel : Nat) (s : kstate) (p : Nat) (s1 : kstate),
      cudaram_flush_bio fuel s p = some s1 → s1.dev = s.dev
  | 0, s, p, s1, h => by
    by_cases hp : p = 0
    · simp [cudaram_flush_bio, hp] at h
      rw [← h]
    · simp [cudaram_flush_bio, hp] at h
  | fuel + 1, s, p, s1, h => by
    by_cases hp : p = 0
    · simp [cudaram_flush_bio, hp] at h
      rw [← h]
    · simp only [cudaram_flush_bio, hp, ne_eq, not_false_eq_true, if_true] at h
      rw [flush_bio_dev fuel _ _ s1 h]
      rfl

/-- Whenever `cudaram_deactivate` terminates, on any state at all: the state is Free, the
pending list is empty, and `current_work` is what it was. -/
theorem deactivate_dev (fuel : Nat) (s s1 : kstate) (bdev_err : Bool)
    (hd : cudaram_deactivate fuel s bdev_err = some s1) :
    s1.dev.state = CUDARAM_STATE_FREE ∧ s1.dev.bio_first = 0 ∧ s1.dev.bio_last = 0
    ∧ s1.dev.current_work = s.dev.current_work := by
  unfold cudaram_deactivate at hd
  simp only at hd
  split at hd
  · cases hd
  · rename_i s2 hfl
    have e1 := flush_bio_dev fuel _ _ s2 hfl
    cases bdev_err with
    | true =>
      simp only [if_true, Option.some.injEq] at hd
      subst hd
      exact ⟨by rw [e1], by rw [e1], by rw [e1], by rw [e1]⟩
    | false =>
      simp only [Bool.false_eq_true, if_false, Option.some.injEq] at hd
      subst hd
      refine ⟨?_, ?_, ?_, ?_⟩
      · show s2.dev.state = _
        rw [e1]
      · show s2.dev.bio_first = _
        rw [e1]
      · show s2.dev.bio_last = _
        rw [e1]
      · show s2.dev.current_work = _
        rw [e1]

theorem pop_bio_dev_state (s : kstate) : (cudaram_pop_bio s).2.dev.state = s.dev.state := by
  unfold cudaram_pop_bio
  by_cases h1 : s.dev.bio_first = 0
  · simp [h1]
  · by_cases h2 : s.dev.bio_last = s.dev.bio_first <;> simp [h1, h2]

theorem get_work_dev_state (P : Nat) (s : kstate) (w : cudaram_work_t) (env : uenv) :
    (cudaram_get_work P s w env).2.1.dev.state = s.dev.state := by
  have hp := pop_bio_dev_state s
  unfold cudaram_get_work
  by_cases hc : s.dev.current_work = 0
  · simp only [hc, ne_eq, not_true_eq_false, if_false]
    split
    · exact hp
    · split
      · split <;> exact hp
      · exact hp
  · simp only [hc, ne_eq, not_false_eq_true, if_true, if_false]
    split
    · split <;> rfl
    · rfl

theorem process_work_dev (s : kstate) (w : cudaram_work_t) (env : uenv) :
    (cudaram_process_work s w env).2.1.dev.state = s.dev.state
    ∧ (cudaram_process_work s w env).2.1.dev.bio_first = s.dev.bio_first
    ∧ (cudaram_process_work s w env).2.1.dev.bio_last = s.dev.bio_last := by
  rcases process_work_state s w env with e | ⟨_, e⟩ <;> rw [e] <;> exact ⟨rfl, rfl, rfl⟩

theorem pending_empty_take (s : kstate) (h : pending_empty_unless_ready s) :
    pending_empty_unless_ready (cudaram_take s).2 := by
  intro _
  have e := take_state_only s
  rw [e.2.1, e.2.2.1]
  by_cases hf : s.dev.state = CUDARAM_STATE_FREE
  · exact h (by rw [hf]; decide)
  · have e2 : (cudaram_take s).2 = s := by simp [cudaram_take, hf]
    rename_i hn
    rw [e2] at hn
    exact h hn

theorem pending_empty_activate (s : kstate) (u : Option cudaram_params)
    (h : pending_empty_unless_ready s) :
    pending_empty_unless_ready (cudaram_activate s u).2 := by
  intro hn
  have e := activate_state_only s u
  rw [e.2.1, e.2.2.1]
  by_cases ht : s.dev.state = CUDARAM_STATE_TAKEN
  · exact h (by rw [ht]; decide)
  · have e2 : (cudaram_activate s u).2 = s := by simp [cudaram_activate, ht]
    rw [e2] at hn
    exact h hn

theorem pending_empty_submit (s : kstate) (b : Nat) (h : pending_empty_unless_ready s) :
    pending_empty_unless_ready (cudaram_make_request s b).2 := by
  intro hn
  by_cases hr : s.dev.state = CUDARAM_STATE_READY
  · have e : cudaram_make_request s b = (0, cudaram_push_bio s b) := by
      simp [cudaram_make_request, hr]
    rw [e] at hn
    exact absurd ((push_bio_state s b).1.trans hr) hn
  · have e : cudaram_make_request s b
        = (0, { s with ended := s.ended ++ [(b, - EIO_code)] }) := by
      simp [cudaram_make_request, hr, bio_io_error, bio_endio]
    rw [e]
    exact h hr

theorem pending_empty_work_wait (P : Nat) (s : kstate) (w : cudaram_work_t) (env : uenv)
    (h : pending_empty_unless_ready s) :
    pending_empty_unless_ready (cudaram_work_wait P s w env).st := by
  rw [work_wait_st]
  by_cases hf : s.dev.bio_first = 0
  · simp only [hf, ne_eq, not_true_eq_false, if_false]
    exact h
  · simp only [hf, ne_eq, not_false_eq_true, if_true]
    intro hn
    rw [get_work_dev_state] at hn
    exact absurd (h hn).1 hf

theorem pending_empty_work (P : Nat) (s : kstate) (uw : Option cudaram_work_t) (env : uenv)
    (h : pending_empty_unless_ready s) :
    pending_empty_unless_ready (cudaram_work P s uw env).st := by
  cases uw with
  | none => exact h
  | some w =>
    have e := process_work_dev s w env
    have hp : pending_empty_unless_ready (cudaram_process_work s w env).2.1 := by
      intro hn
      rw [e.1] at hn
      rw [e.2.1, e.2.2]
      exact h hn
    unfold cudaram_work
    by_cases he : (cudaram_process_work s w env).1 = 0
    · simp only [he, ne_eq, not_true_eq_false, if_false]
      exact pending_empty_work_wait P _ _ env hp
    · simp only [he, ne_eq, not_false_eq_true, if_true]
      exact hp

theorem pending_empty_step (P fuel : Nat) (s s1 : kstate) (o : op)
    (h : pending_empty_unless_ready s) (hs : step P fuel s o = some s1) :
    pending_empty_unless_ready s1 := by
  cases o with
  | take =>
    simp only [step, Option.some.injEq] at hs
    subst hs
    exact pending_empty_take s h
  | activate u =>
    simp only [step, Option.some.injEq] at hs
    subst hs
    exact pending_empty_activate s u h
  | submit b =>
    simp only [step, Option.some.injEq] at hs
    subst hs
    exact pending_empty_submit s b h
  | exchange uw env =>
    simp only [step, Option.some.injEq] at hs
    subst hs
    exact pending_empty_work P s uw env h
  | wake w env =>
    simp only [step, Option.some.injEq] at hs
    subst hs
    exact pending_empty_work_wait P s w env h
  | deactivate e =>
    simp only [step] at hs
    have hd := deactivate_dev fuel s s1 e hs
    exact fun _ => ⟨hd.2.1, hd.2.2.1⟩

/-- The half of the state/queue invariant that the code keeps: in every state reachable
from a freshly allocated device by any sequence of operations, whenever the state is not
Ready the pending list is empty. -/
theorem pending_empty_run (P fuel : Nat) :
    ∀ (os : List op) (s s1 : kstate), pending_empty_unless_ready s →
      run P fuel s os = some s1 → pending_empty_unless_ready s1
  | [], s, s1, h, hr => by
    simp only [run, Option.some.injEq] at hr
    subst hr
    exact h
  | o :: os, s, s1, h, hr => by
    simp only [run] at hr
    cases hst : step P fuel s o with
    | none => simp [hst] at hr
    | some s2 =>
      simp only [hst] at hr
      exact pending_empty_run P fuel os s2 s1 (pending_empty_step P fuel s s2 o h hst) hr

theorem pending_empty_fresh (s : kstate) (hd : s.dev = cudaram_alloc) :
    pending_empty_unless_ready s := by
  intro _
  rw [hd]
  exact ⟨rfl, rfl⟩

/-- C11, the code at a failing input.  A freshly allocated device goes through one
session that is closed while a request is handed out: take, activate with capacity 100,
submit the read at address 1, one exchange, deactivate.  The state reached is Free, so
not Ready, and the pending list is empty, but the current request is still set (address
1).  It stays set through the next take (state Taken, not Ready), and after the next
activate and the submission of the write at address 2 the first exchange of the new
daemon hands out the stale read at address 1, not the write. -/
theorem current_survives_deactivate :
    (run 12 0 st_free session_closed_early).map observe
      = some ({ state := CUDARAM_STATE_FREE, user_buffer := 4096, bio_first := 0,
                bio_last := 0, current_work := 1, capacity := 0, max_hw_sectors := 2048 },
              [])
    ∧ (run 12 0 st_free (session_closed_early ++ [op.take])).map observe
      = some ({ state := CUDARAM_STATE_TAKEN, user_buffer := 4096, bio_first := 0,
                bio_last := 0, current_work := 1, capacity := 0, max_hw_sectors := 2048 },
              [])
    ∧ (run 12 0 st_free second_session).map
        (fun s => (cudaram_work 12 s (some work_none) quiet).user_work)
      = some (some { id := 1, dir := READ, len := 2, first_page := 10 })
    ∧ (run 12 0 st_free second_session).map
        (fun s => (s.dev.state, s.dev.bio_first, s.dev.current_work))
      = some (CUDARAM_STATE_READY, 2, 1) := by
  refine ⟨by decide, by decide, by decide, by decide⟩

/-- The pending-list half of C11 for the states reachable from a freshly allocated device:
if the state is not Ready, `bio_first` and `bio_last` are `NULL`. -/
theorem pending_empty_reachable (P fuel : Nat) (os : List op) (s0 s1 : kstate)
    (hd : s0.dev = cudaram_alloc) (hr : run P fuel s0 os = some s1)
    (hn : s1.dev.state ≠ CUDARAM_STATE_READY) :
    s1.dev.bio_first = 0 ∧ s1.dev.bio_last = 0 :=
  pending_empty_run P fuel os s0 s1 (pending_empty_fresh s0 hd) hr hn

end Cudaram
